import Mathlib

set_option maxRecDepth 100000

/-!
# Verification of the iot_llm natural-language query resolution engine

Shallow embedding of the NL→SQL pipeline of the `nignite/iot_llm` repository:

* `db/oracle/oracle_query_interface.py` — `OracleQueryInterface`
  (`parse_time_expressions`, `identify_query_intent`, `extract_filters`,
  `build_sql_query`, `execute_natural_language_query`);
* `db/oracle/oracle_domain_mapping.py` — `OracleDomainMapper.suggest_tables`;
* `src/knowledge_system.py` — `QueryKnowledgeSystem`
  (`record_query`, `_learn_vocabulary`, `_update_vocabulary`,
  `_learn_query_patterns`, `get_domain_vocabulary`);
* `src/llm_providers.py` — `LLMProviderManager.generate_sql`.

Modelling conventions:
* Python strings are Lean `String`s; `str.lower()` / `str.strip()` /
  substring tests are modelled per-character, faithful for the ASCII texts
  the engine works on.
* The handful of fixed regular expressions the source uses (`re.search`,
  `re.sub`, `re.findall`) are embedded as data (alternatives of atom
  sequences) interpreted by a small executable matcher with Python's
  semantics: leftmost match, alternatives in order, greedy quantifiers
  with backtracking where it can matter (`s?` before `\b`).
* `datetime` values are minutes since an epoch midnight (an `Int`); the
  model's granularity is one minute, which is the finest granularity any
  claim or time window in this code distinguishes.  `timedelta` arithmetic
  is plain integer arithmetic.  The two calendar-dependent operations the
  code applies to `now` (`weekday()`, `replace(day=1)`) are derived from
  the `PyNow` structure that carries `now`'s day-of-month.
* Recursions that walk a shrinking string use an explicit fuel argument
  (always at least the string length plus one, which the shrinking step
  makes sufficient) so that every definition is structural and computable
  by `decide`/`rfl` in the kernel.
* Numeric values (`float` in Python) are `ℚ`; cryptographic hashing (`md5`)
  and database execution are uninterpreted function parameters.
-/

/-! ## Character classes (Python `\w`, `\s`, `\d` on ASCII text) -/

def isWordChar (c : Char) : Bool := c.isAlpha || c.isDigit || c == '_'

def isSpaceChar (c : Char) : Bool :=
  c == ' ' || c == '\t' || c == '\n' || c == '\r' || c == '\x0b' || c == '\x0c'

/-- Python `str.lower()` (ASCII). -/
def lowerStr (s : String) : String := String.mk (s.data.map Char.toLower)

/-- Python `str.strip()` (ASCII whitespace). -/
def stripChars (l : List Char) : List Char :=
  ((l.dropWhile isSpaceChar).reverse.dropWhile isSpaceChar).reverse

def stripS (s : String) : String := String.mk (stripChars s.data)

/-! ## A small regex engine

A `Regex` is a list of alternatives; an alternative is a sequence of
`Atom`s.  This is exactly the shape of every pattern the source uses once
`(?:a|b)c` is distributed to `ac|bc` (preserving Python's order of
preference).  Matching is case-insensitive — every call site in the source
either matches against a lower-cased string or passes `re.IGNORECASE`. -/

inductive Atom where
  | lit (cs : List Char)   -- literal text (given lower-cased)
  | ws1                    -- `\s+`
  | ws0                    -- `\s*`
  | wb                     -- `\b`
  | numCap                 -- `(\d+)`
  | fnumCap                -- `(\d+(?:\.\d+)?)`
  | wordCap                -- `(\w+)`
  | optc (c : Char)        -- `c?`
  deriving Repr

abbrev Regex := List (List Atom)

def charAt (t : List Char) (i : Nat) : Option Char := t.get? i

/-- Length of the maximal run of characters satisfying `p` starting at `i`. -/
def runLen (p : Char → Bool) (t : List Char) (i : Nat) : Nat :=
  ((t.drop i).takeWhile p).length

def sliceChars (t : List Char) (i k : Nat) : List Char := (t.drop i).take k

/-- Python `\b`: exactly one of the two neighbouring positions is a word char. -/
def boundaryAt (t : List Char) (i : Nat) : Bool :=
  let w : Option Char → Bool := fun c => (c.map isWordChar).getD false
  (w (if i = 0 then none else charAt t (i - 1))) != (w (charAt t i))

/-- Match a sequence of atoms at position `i` of `t` (case-insensitively),
returning the end position and the captured groups.  Backtracks over
`optc` (greedy first), which is the only place where Python's backtracking
can matter for these patterns. -/
def matchAtoms (t : List Char) : List Atom → Nat → List String → Option (Nat × List String)
  | [], i, caps => some (i, caps)
  | .lit cs :: rest, i, caps =>
      if (sliceChars t i cs.length).map Char.toLower == cs then
        matchAtoms t rest (i + cs.length) caps
      else none
  | .ws1 :: rest, i, caps =>
      let k := runLen isSpaceChar t i
      if k == 0 then none else matchAtoms t rest (i + k) caps
  | .ws0 :: rest, i, caps => matchAtoms t rest (i + runLen isSpaceChar t i) caps
  | .wb :: rest, i, caps =>
      if boundaryAt t i then matchAtoms t rest i caps else none
  | .numCap :: rest, i, caps =>
      let k := runLen Char.isDigit t i
      if k == 0 then none
      else matchAtoms t rest (i + k) (caps ++ [String.mk (sliceChars t i k)])
  | .fnumCap :: rest, i, caps =>
      let k := runLen Char.isDigit t i
      if k == 0 then none
      else
        let kf := runLen Char.isDigit t (i + k + 1)
        let k2 := if charAt t (i + k) == some '.' && kf != 0 then k + 1 + kf else k
        matchAtoms t rest (i + k2) (caps ++ [String.mk (sliceChars t i k2)])
  | .wordCap :: rest, i, caps =>
      let k := runLen isWordChar t i
      if k == 0 then none
      else matchAtoms t rest (i + k) (caps ++ [String.mk (sliceChars t i k)])
  | .optc c :: rest, i, caps =>
      if (charAt t i).map Char.toLower == some c then
        match matchAtoms t rest (i + 1) caps with
        | some r => some r
        | none => matchAtoms t rest i caps
      else matchAtoms t rest i caps

/-- Try the alternatives of a regex, in order, at position `i`. -/
def tryAlts (t : List Char) (r : Regex) (i : Nat) : Option (Nat × List String) :=
  match r with
  | [] => none
  | alt :: alts =>
      match matchAtoms t alt i [] with
      | some res => some res
      | none => tryAlts t alts i

/-- `re.search` scan: first start position (then first alternative) that
matches.  Returns (start, end, captures).  `fuel` bounds the scan; callers
pass `t.length + 1` which covers every start position. -/
def searchFromF (t : List Char) (r : Regex) : Nat → Nat → Option (Nat × Nat × List String)
  | 0, _ => none
  | fuel + 1, i =>
      match tryAlts t r i with
      | some (e, caps) => some (i, e, caps)
      | none => if i < t.length then searchFromF t r fuel (i + 1) else none

/-- Embedding of Python `re.search(pattern, text)` (case-insensitive). -/
def reSearch (r : Regex) (t : List Char) : Option (Nat × Nat × List String) :=
  searchFromF t r (t.length + 1) 0

/-- Embedding of `re.sub(pattern, '', text)`: delete every (non-overlapping,
left-to-right) match.  Our patterns never match the empty string, so each
step removes at least one character and `t.length + 1` fuel suffices; the
`s < e` guard is unreachable and only keeps the recursion structural. -/
def rmAllF (r : Regex) : Nat → List Char → List Char
  | 0, t => t
  | fuel + 1, t =>
      match reSearch r t with
      | none => t
      | some (s, e, _) =>
          if s < e then t.take s ++ rmAllF r fuel (t.drop e) else t

def rmAll (r : Regex) (t : List Char) : List Char := rmAllF r (t.length + 1) t

/-- Embedding of `re.findall`, collecting each match's first capture. -/
def findAllCapsF (r : Regex) : Nat → List Char → List String
  | 0, _ => []
  | fuel + 1, t =>
      match reSearch r t with
      | none => []
      | some (s, e, caps) =>
          if s < e then caps.headD "" :: findAllCapsF r fuel (t.drop e) else []

def findAllCaps (r : Regex) (t : List Char) : List String :=
  findAllCapsF r (t.length + 1) t

/-- Decimal digits of a captured `(\d+)` group, as a `Nat` (Python `int(...)`). -/
def digitsToNat (s : String) : Nat :=
  s.data.foldl (fun a c => a * 10 + (c.toNat - '0'.toNat)) 0

/-- A captured `(\d+(?:\.\d+)?)` group as a rational (Python `float(...)`). -/
def parseQ (s : String) : ℚ :=
  let ip := s.data.takeWhile Char.isDigit
  let rest := s.data.drop (ip.length + 1)
  (digitsToNat (String.mk ip) : ℚ) +
    (digitsToNat (String.mk rest) : ℚ) / (10 : ℚ) ^ rest.length

/-! ## Time model

A `datetime` is minutes since an epoch midnight (`Int`).  `PyNow` is the
call-time `now`: its minute count plus the one calendar fact the code
reads from it that minutes cannot provide (`now.day`, used by
`now.replace(day=1)`).  The epoch is taken to be a Monday, so
`now.weekday()` is `(minutes / 1440) mod 7`. -/

structure PyNow where
  minutes : Int
  monthDay : Nat   -- day of month, 1-based (Python `now.day`)
  deriving Repr, DecidableEq

def minutesPerDay : Int := 1440

def PyNow.weekday (n : PyNow) : Int := (n.minutes.ediv minutesPerDay).emod 7

/-- `now.replace(hour=0, minute=0, second=0)` at minute granularity. -/
def PyNow.dayStart (n : PyNow) : Int := n.minutes - n.minutes.emod minutesPerDay

/-- `now.replace(day=1)` (same time of day on the first of the month). -/
def PyNow.monthStart (n : PyNow) : Int := n.minutes - ((n.monthDay : Int) - 1) * minutesPerDay

/-! ## `OracleQueryInterface.parse_time_expressions`

The `time_patterns` dict of `oracle_query_interface.py` (lines 48–63), in
its (insertion-order) iteration order, each with its window builder.
Builders return window endpoints in minutes. -/

def lit (s : String) : Atom := .lit s.data

def lastWeekRe    : Regex := [[.wb, lit "last", .ws1, lit "week", .wb]]
def pastWeekRe    : Regex := [[.wb, lit "past", .ws1, lit "week", .wb]]
def thisWeekRe    : Regex := [[.wb, lit "this", .ws1, lit "week", .wb]]
def lastMonthRe   : Regex := [[.wb, lit "last", .ws1, lit "month", .wb]]
def pastMonthRe   : Regex := [[.wb, lit "past", .ws1, lit "month", .wb]]
def thisMonthRe   : Regex := [[.wb, lit "this", .ws1, lit "month", .wb]]
def lastNDaysRe   : Regex := [[.wb, lit "last", .ws1, .numCap, .ws1, lit "day", .optc 's', .wb]]
def pastNDaysRe   : Regex := [[.wb, lit "past", .ws1, .numCap, .ws1, lit "day", .optc 's', .wb]]
def lastNHoursRe  : Regex := [[.wb, lit "last", .ws1, .numCap, .ws1, lit "hour", .optc 's', .wb]]
def pastNHoursRe  : Regex := [[.wb, lit "past", .ws1, .numCap, .ws1, lit "hour", .optc 's', .wb]]
def yesterdayRe   : Regex := [[.wb, lit "yesterday", .wb]]
def todayRe       : Regex := [[.wb, lit "today", .wb]]
def lastHourRe    : Regex := [[.wb, lit "last", .ws1, lit "hour", .wb]]
def pastHourRe    : Regex := [[.wb, lit "past", .ws1, lit "hour", .wb]]

/-- First capture of a match, as a number (`int(m.group(1))`). -/
def capNum (caps : List String) : Int := digitsToNat (caps.headD "")

def oracleTimePatterns : List (Regex × (PyNow → List String → Int × Int)) :=
  [ (lastWeekRe,   fun n _ => (n.minutes - 7 * minutesPerDay, n.minutes)),
    (pastWeekRe,   fun n _ => (n.minutes - 7 * minutesPerDay, n.minutes)),
    (thisWeekRe,   fun n _ => (n.minutes - n.weekday * minutesPerDay, n.minutes)),
    (lastMonthRe,  fun n _ => (n.minutes - 30 * minutesPerDay, n.minutes)),
    (pastMonthRe,  fun n _ => (n.minutes - 30 * minutesPerDay, n.minutes)),
    (thisMonthRe,  fun n _ => (n.monthStart, n.minutes)),
    (lastNDaysRe,  fun n c => (n.minutes - capNum c * minutesPerDay, n.minutes)),
    (pastNDaysRe,  fun n c => (n.minutes - capNum c * minutesPerDay, n.minutes)),
    (lastNHoursRe, fun n c => (n.minutes - capNum c * 60, n.minutes)),
    (pastNHoursRe, fun n c => (n.minutes - capNum c * 60, n.minutes)),
    (yesterdayRe,  fun n _ => (n.minutes - minutesPerDay,
                               n.minutes - minutesPerDay + (23 * 60 + 59))),
    (todayRe,      fun n _ => (n.dayStart, n.minutes)),
    (lastHourRe,   fun n _ => (n.minutes - 60, n.minutes)),
    (pastHourRe,   fun n _ => (n.minutes - 60, n.minutes)) ]

/-- The `for pattern, time_range in time_patterns.items()` loop: first
pattern that matches wins; its matches are removed from the query (which
is then stripped); no match leaves the query untouched with no window. -/
def ptLoop (now : PyNow) (q : List Char) :
    List (Regex × (PyNow → List String → Int × Int)) → String × Option Int × Option Int
  | [] => (String.mk q, none, none)
  | (r, build) :: rest =>
      match reSearch r q with
      | some (_, _, caps) =>
          (String.mk (stripChars (rmAll r q)),
           some (build now caps).1, some (build now caps).2)
      | none => ptLoop now q rest

/-- `OracleQueryInterface.parse_time_expressions` (lines 39–76). -/
def parse_time_expressions (now : PyNow) (query : String) :
    String × Option Int × Option Int :=
  ptLoop now query.data oracleTimePatterns

/-! ## `OracleDomainMapper` (`oracle_domain_mapping.py`)

`table_mappings` in insertion order (lines 11–86), the `suggest_tables`
pattern table (lines 197–205), and the scoring fold (lines 183–218).
Python's insertion-ordered dict of scores is an association list; adding
to a missing key appends it. -/

def table_mappings : List (String × String) :=
  [ ("signal", "SIGNALITEM"), ("signals", "SIGNALITEM"), ("sensor", "SIGNALITEM"),
    ("sensors", "SIGNALITEM"), ("signal_definitions", "SIGNALITEM"),
    ("sensor_definitions", "SIGNALITEM"), ("measurement_points", "SIGNALITEM"),
    ("data_points", "SIGNALITEM"), ("instruments", "SIGNALITEM"),
    ("current_values", "SIGNALVALUE"), ("live_data", "SIGNALVALUE"),
    ("real_time_data", "SIGNALVALUE"), ("current_readings", "SIGNALVALUE"),
    ("latest_values", "SIGNALVALUE"), ("signal_values", "SIGNALVALUE"),
    ("historical_data", "REPDATA"), ("history", "REPDATA"),
    ("historical_values", "REPDATA"), ("time_series", "REPDATA"),
    ("archived_data", "REPDATA"), ("process_data", "REPDATA"),
    ("measurements", "REPDATA"), ("readings", "REPDATA"),
    ("calculations", "REPITEM"), ("calculated_values", "REPITEM"),
    ("aggregations", "REPITEM"), ("aggregated_data", "REPITEM"),
    ("computed_data", "REPITEM"), ("analytics", "REPITEM"), ("reports", "REPITEM"),
    ("report_items", "REPITEM"), ("kpi", "REPITEM"), ("metrics", "REPITEM"),
    ("channels", "SIGNALCHANNEL"), ("signal_channels", "SIGNALCHANNEL"),
    ("communication_channels", "SIGNALCHANNEL"), ("data_sources", "SIGNALCHANNEL"),
    ("connections", "SIGNALCHANNEL"), ("interfaces", "SIGNALCHANNEL"),
    ("protocols", "SIGNALCHANNEL"),
    ("groups", "CHANNELGROUP"), ("channel_groups", "CHANNELGROUP"),
    ("signal_groups", "CHANNELGROUP"), ("equipment_groups", "CHANNELGROUP"),
    ("areas", "CHANNELGROUP"), ("zones", "CHANNELGROUP"),
    ("time_periods", "PROCINSTANCE"), ("process_instances", "PROCINSTANCE"),
    ("periods", "PROCINSTANCE"), ("intervals", "PROCINSTANCE"),
    ("batches", "PROCINSTANCE"), ("runs", "PROCINSTANCE"), ("sessions", "PROCINSTANCE"),
    ("addresses", "ADDRESS"), ("external_systems", "ADDRESS"),
    ("remote_systems", "ADDRESS"), ("customers", "ADDRESS"),
    ("endpoints", "ADDRESS"), ("destinations", "ADDRESS") ]

def stPatterns : List (String × List Regex) :=
  [ ("SIGNALVALUE",
      [ [[.wb, lit "current", .ws1, lit "value", .optc 's', .wb]],
        [[.wb, lit "live", .ws1, lit "data", .wb]],
        [[.wb, lit "latest", .ws1, lit "value", .optc 's', .wb]],
        [[.wb, lit "real", .ws0, lit "time", .wb]],
        [[.wb, lit "signal", .ws1, lit "value", .optc 's', .wb]],
        [[.wb, lit "current", .ws1, lit "signal", .wb]] ]),
    ("REPDATA",
      [ [[.wb, lit "historical", .ws1, lit "data", .wb]],
        [[.wb, lit "history", .wb]],
        [[.wb, lit "past", .ws1, lit "data", .wb]],
        [[.wb, lit "archived", .wb]] ]),
    ("SIGNALCHANNEL",
      [ [[.wb, lit "channel", .optc 's', .wb]],
        [[.wb, lit "communication", .wb]],
        [[.wb, lit "protocol", .optc 's', .wb]],
        [[.wb, lit "connection", .optc 's', .wb]] ]),
    ("CHANNELGROUP",
      [ [[.wb, lit "group", .optc 's', .wb]],
        [[.wb, lit "area", .optc 's', .wb]],
        [[.wb, lit "zone", .optc 's', .wb]],
        [[.wb, lit "equipment", .ws1, lit "group", .optc 's', .wb]] ]),
    ("REPITEM",
      [ [[.wb, lit "calculation", .optc 's', .wb]],
        [[.wb, lit "report", .optc 's', .wb]],
        [[.wb, lit "computed", .wb]],
        [[.wb, lit "aggregate", .optc 'd', .wb]] ]),
    ("PROCINSTANCE",
      [ [[.wb, lit "process", .ws1, lit "instance", .optc 's', .wb]],
        [[.wb, lit "period", .optc 's', .wb]],
        [[.wb, lit "batche", .optc 's', .wb]],
        [[.wb, lit "time", .ws1, lit "period", .optc 's', .wb]] ]),
    ("SIGNALITEM",
      [ [[.wb, lit "signal", .ws1, lit "definition", .optc 's', .wb]],
        [[.wb, lit "sensor", .ws1, lit "definition", .optc 's', .wb]],
        [[.wb, lit "signal", .ws1, lit "config", .wb]],
        [[.wb, lit "all", .ws1, lit "signal", .optc 's', .wb]],
        [[.wb, lit "all", .ws1, lit "sensor", .optc 's', .wb]] ]) ]

/-- `scores[k] = scores.get(k, 0) + v` on an insertion-ordered dict. -/
def bump (l : List (String × Nat)) (k : String) (v : Nat) : List (String × Nat) :=
  match l with
  | [] => [(k, v)]
  | (k', v') :: rest => if k' = k then (k', v' + v) :: rest else (k', v') :: bump rest k v

/-- `n` is a prefix of `h`. -/
def isPrefixB : List Char → List Char → Bool
  | [], _ => true
  | _ :: _, [] => false
  | a :: as, b :: bs => a == b && isPrefixB as bs

/-- `n` occurs contiguously inside `h`. -/
def isSubList (n : List Char) : List Char → Bool
  | [] => n.isEmpty
  | c :: rest => isPrefixB n (c :: rest) || isSubList n rest

/-- Substring test, Python `needle in hay`. -/
def subB (needle hay : String) : Bool := isSubList needle.data hay.data

/-- The two scoring folds of `suggest_tables`: substring hits add the
term's length, pattern hits add 10. -/
def stScores (ql : String) : List (String × Nat) :=
  let s1 := table_mappings.foldl
    (fun acc p => if subB p.1 ql then bump acc p.2 p.1.length else acc) []
  stPatterns.foldl
    (fun acc tp => tp.2.foldl
      (fun a r => if (reSearch r ql.data).isSome then bump a tp.1 10 else a) acc) s1

/-- Stable descending insertion: `x` goes before the first strictly-smaller
element, hence after existing equal scores — the order Python's stable
`sorted(..., reverse=True)` produces. -/
def insDesc (gt : α → α → Bool) (x : α) : List α → List α
  | [] => [x]
  | y :: ys => if gt x y then x :: y :: ys else y :: insDesc gt x ys

def sortDesc (gt : α → α → Bool) (l : List α) : List α :=
  l.foldl (fun acc x => insDesc gt x acc) []

/-- `OracleDomainMapper.suggest_tables` (lines 183–218). -/
def suggest_tables (query_text : String) : List String :=
  let ql := lowerStr query_text
  let scores := stScores ql
  ((sortDesc (fun a b => a.2 > b.2) scores).map Prod.fst).take 2

/-! ## Filters, intent, SQL synthesis (`oracle_query_interface.py`) -/

/-- SQL parameter / filter values.  Python uses strings, numbers, 2-element
lists (BETWEEN bounds) and `datetime`s; `listv` is the 2-element list. -/
inductive SqlVal where
  | num (x : ℚ)
  | str (s : String)
  | time (m : Int)
  | listv (lo hi : ℚ)
  deriving Repr, DecidableEq

structure QFilter where
  column : String
  op : String
  value : SqlVal
  deriving Repr, DecidableEq

structure QueryIntent where
  action : String
  tables : List String
  columns : List String
  filters : List QFilter
  aggregation : Option String
  timeStart : Option Int
  timeEnd : Option Int
  limit : Option Nat
  orderBy : Option String
  deriving Repr, DecidableEq

def anySubB (ws : List String) (s : String) : Bool := ws.any (fun w => subB w s)

/-- The `value_patterns` list of `extract_filters` (lines 182–187):
regex, SQL operator, number of captures. -/
def valuePatterns : List (Regex × String × Nat) :=
  [ ([[lit "above", .ws0, .fnumCap], [lit "over", .ws0, .fnumCap],
      [lit "greater than", .ws0, .fnumCap], [lit ">", .ws0, .fnumCap]], ">", 1),
    ([[lit "below", .ws0, .fnumCap], [lit "under", .ws0, .fnumCap],
      [lit "less than", .ws0, .fnumCap], [lit "<", .ws0, .fnumCap]], "<", 1),
    ([[lit "equal", .optc 's', .ws0, .fnumCap], [lit "=", .ws0, .fnumCap]], "=", 1),
    ([[lit "between", .ws1, .fnumCap, .ws1, lit "and", .ws1, .fnumCap]], "BETWEEN", 2) ]

/-- The `unit_patterns` list (lines 206–213); the literal characters are
exactly the source file's bytes. -/
def unitPatterns : List (Regex × String) :=
  [ ([[.wb, lit "degree", .optc 's', .wb], [.wb, lit "째c", .wb], [.wb, lit "celsius", .wb]], "째C"),
    ([[.wb, lit "fahrenheit", .wb], [.wb, lit "째f", .wb]], "째F"),
    ([[.wb, lit "bar", .wb], [.wb, lit "psi", .wb], [.wb, lit "pascal", .wb]], "bar"),
    ([[.wb, lit "lpm", .wb], [.wb, lit "l/min", .wb], [.wb, lit "liter", .optc 's', .wb]], "L/min"),
    ([[.wb, lit "watt", .optc 's', .wb], [.wb, lit "w", .wb], [.wb, lit "kw", .wb]], "W"),
    ([[.wb, lit "percent", .wb], [.wb, lit "%", .wb], [.wb, lit "rh", .wb]], "%") ]

/-- One `value_patterns` loop step: every matching pattern appends a
`SIGNUMVALUE` filter (1 capture) or a BETWEEN filter (2 captures). -/
def valueFilterStep (ql : List Char) (acc : List QFilter) (vp : Regex × String × Nat) :
    List QFilter :=
  match reSearch vp.1 ql with
  | none => acc
  | some (_, _, caps) =>
      if vp.2.2 = 2 then
        acc ++ [⟨"SIGNUMVALUE", vp.2.1, .listv (parseQ (caps.headD "")) (parseQ (caps.getD 1 ""))⟩]
      else
        acc ++ [⟨"SIGNUMVALUE", vp.2.1, .num (parseQ (caps.headD ""))⟩]

/-- The `unit_patterns` loop: first matching pattern appends one `OBJUNIT
LIKE %unit%` filter, then breaks. -/
def unitFilter (ql : List Char) : List (Regex × String) → List QFilter
  | [] => []
  | (r, u) :: rest =>
      if (reSearch r ql).isSome then [⟨"OBJUNIT", "LIKE", .str ("%" ++ u ++ "%")⟩]
      else unitFilter ql rest

/-- `OracleQueryInterface.extract_filters` (lines 163–220). -/
def extract_filters (query : String) : List QFilter :=
  let ql := lowerStr query
  let statusF : List QFilter :=
    if anySubB ["online", "active", "running"] ql then [⟨"status", "=", .str "online"⟩]
    else if anySubB ["offline", "inactive", "down"] ql then [⟨"status", "=", .str "offline"⟩]
    else []
  let qualF : List QFilter :=
    if anySubB ["good quality", "valid"] ql then
      [⟨"SIGSTATUS", "=", .num 0⟩, ⟨"PCTQUAL", ">", .num (9/10)⟩]
    else if anySubB ["bad quality", "invalid"] ql then [⟨"SIGSTATUS", "!=", .num 0⟩]
    else []
  let valF := valuePatterns.foldl (valueFilterStep ql.data) []
  statusF ++ qualF ++ valF ++ unitFilter ql.data unitPatterns

/-- The keyword ladder of `identify_query_intent` used when
`suggest_tables` returned nothing (lines 117–147). -/
def tableLadder (qcl : String) : List String :=
  if anySubB ["current values", "live values", "latest values", "signal values",
              "current readings"] qcl then ["SIGNALVALUE"]
  else if anySubB ["historical data", "history", "past data", "archived",
                   "time series"] qcl then ["REPDATA"]
  else if anySubB ["channel groups", "groups", "equipment groups"] qcl then ["CHANNELGROUP"]
  else if anySubB ["channels", "signal channels", "communication", "protocols"] qcl then
    ["SIGNALCHANNEL"]
  else if anySubB ["calculations", "reports", "computed", "aggregated"] qcl then ["REPITEM"]
  else if anySubB ["process instances", "periods", "time periods", "batches"] qcl then
    ["PROCINSTANCE"]
  else if anySubB ["addresses", "external systems", "endpoints"] qcl then ["ADDRESS"]
  else if anySubB ["signal", "sensor", "measurement"] qcl then
    (if anySubB ["definition", "configure", "setup", "type"] qcl then ["SIGNALITEM"]
     else ["SIGNALVALUE"])
  else if subB "current" qcl || subB "now" qcl then ["SIGNALVALUE"]
  else if subB "all" qcl && (subB "signals" qcl || subB "sensors" qcl) then ["SIGNALITEM"]
  else ["SIGNALITEM"]

def limitRe : Regex :=
  [ [.wb, lit "top", .ws1, .numCap, .wb],
    [.wb, lit "limit", .ws1, .numCap, .wb],
    [.wb, lit "first", .ws1, .numCap, .wb] ]

def selectVerbs : List String := ["show", "list", "display", "get", "find", "what"]

/-- The action / aggregation `if-elif` chain of `identify_query_intent`
(lines 97–110): SELECT verbs are checked first and suppress aggregation. -/
def actionAggOf (queryLower : String) : String × Option String :=
  if anySubB selectVerbs queryLower then ("SELECT", none)
  else if anySubB ["count", "how many"] queryLower then ("COUNT", some "COUNT")
  else if anySubB ["average", "avg", "mean"] queryLower then ("SELECT", some "AVG")
  else if anySubB ["maximum", "max", "highest"] queryLower then ("SELECT", some "MAX")
  else if anySubB ["minimum", "min", "lowest"] queryLower then ("SELECT", some "MIN")
  else if anySubB ["sum", "total"] queryLower then ("SELECT", some "SUM")
  else ("SELECT", none)

/-- `OracleQueryInterface.identify_query_intent` (lines 78–161). -/
def identify_query_intent (now : PyNow) (query : String) : QueryIntent :=
  let queryLower := stripS (lowerStr query)
  let pt := parse_time_expressions now query
  let qcl := lowerStr pt.1
  let aa := actionAggOf queryLower
  let t0 := suggest_tables pt.1
  let tables := if t0.isEmpty then tableLadder qcl else t0
  let lim0 : Nat :=
    match reSearch limitRe queryLower.data with
    | some (_, _, caps) => digitsToNat (caps.headD "")
    | none => 0
  { action := aa.1, tables := tables, columns := [],
    filters := extract_filters pt.1, aggregation := aa.2,
    timeStart := pt.2.1, timeEnd := pt.2.2,
    limit := some (if lim0 = 0 then 100 else lim0), orderBy := none }

/-- Python `sep.join(l)`. -/
def joinSep (sep : String) : List String → String
  | [] => ""
  | [x] => x
  | x :: y :: xs => x ++ sep ++ joinSep sep (y :: xs)

/-- The WHERE fragment and bind parameters of one filter condition
(`build_sql_query` lines 264–278). -/
def filterFrag (f : QFilter) : String × List SqlVal :=
  if f.op = "BETWEEN" then
    match f.value with
    | .listv lo hi => (f.column ++ " BETWEEN ? AND ?", [.num lo, .num hi])
    | v => (f.column ++ " " ++ f.op ++ " ?", [v])
  else if f.op = "LIKE" then (f.column ++ " LIKE ?", [f.value])
  else (f.column ++ " " ++ f.op ++ " ?", [f.value])

/-- SELECT clause of `build_sql_query` (lines 229–256). -/
def selectClauseOf (agg : Option String) (primary : String) : String :=
  match agg with
  | some a =>
      if a = "COUNT" then "SELECT COUNT(*)"
      else if primary = "SIGNALVALUE" then "SELECT " ++ a ++ "(SIGNUMVALUE)"
      else if primary = "REPDATA" then "SELECT " ++ a ++ "(NUMVALUE)"
      else "SELECT COUNT(*)"
  | none =>
      if primary = "SIGNALITEM" then
        "SELECT SIGID, SIGNAME, SIGTYPE, OBJDESCR, OBJUNIT, CHANNR"
      else if primary = "SIGNALVALUE" then
        "SELECT SIGID, UPDATETIME, SIGNUMVALUE, SIGTEXTVALUE, SIGSTATUS"
      else if primary = "SIGNALCHANNEL" then
        "SELECT CHANNR, CHANNAME, CHANDESCR, GROUPNR, HOSTNAME"
      else if primary = "REPDATA" then
        "SELECT PINSTID, RICODE, NUMVALUE, TEXTVALUE, PCTQUAL"
      else if primary = "REPITEM" then
        "SELECT RICODE, RITEXT, RICLASS, RIUNIT, DESCRIPTION"
      else if primary = "CHANNELGROUP" then
        "SELECT GROUPNR, GROUPNAME, DESCRIPTION, NODENR"
      else "SELECT *"

/-- FROM clause, time-range WHERE fragments and time bind parameters
(lines 258–289: the REPDATA case appends the PROCINSTANCE join before the
time predicate). -/
def fromTimeOf (primary : String) (ts te : Option Int) :
    String × List String × List SqlVal :=
  match ts, te with
  | some s, some e =>
      if primary = "SIGNALVALUE" then
        (" FROM " ++ primary, ["UPDATETIME BETWEEN ? AND ?"], [.time s, .time e])
      else if primary = "REPDATA" then
        (" FROM " ++ primary ++ " JOIN PROCINSTANCE ON REPDATA.PINSTID = PROCINSTANCE.PINSTID",
         ["PROCINSTANCE.PINSTSTART BETWEEN ? AND ?"], [.time s, .time e])
      else (" FROM " ++ primary, [], [])
  | _, _ => (" FROM " ++ primary, [], [])

/-- ORDER BY clause (lines 296–306): omitted entirely when aggregating. -/
def orderClauseOf (agg : Option String) (primary : String) : String :=
  match agg with
  | some _ => ""
  | none =>
      if primary = "SIGNALVALUE" then " ORDER BY UPDATETIME DESC"
      else if primary = "REPDATA" then " ORDER BY PINSTID DESC"
      else if primary = "SIGNALITEM" then " ORDER BY SIGNAME"
      else " ORDER BY 1"

/-- LIMIT clause (line 309, `if intent['limit']` is falsy for 0/None). -/
def limitClauseOf (l : Option Nat) : String :=
  match l with
  | some n => if n = 0 then "" else " LIMIT " ++ Nat.repr n
  | none => ""

/-- `OracleQueryInterface.build_sql_query` (lines 222–314). -/
def build_sql_query (intent : QueryIntent) : String × List SqlVal :=
  let primary := intent.tables.headD "SIGNALITEM"
  let filterParts := intent.filters.map filterFrag
  let ftp := fromTimeOf primary intent.timeStart intent.timeEnd
  let whereConds := filterParts.map Prod.fst ++ ftp.2.1
  let params := (filterParts.map Prod.snd).flatten ++ ftp.2.2
  let whereClause := if whereConds.isEmpty then "" else " WHERE " ++ joinSep " AND " whereConds
  (selectClauseOf intent.aggregation primary ++ ftp.1 ++ whereClause ++
     orderClauseOf intent.aggregation primary ++ limitClauseOf intent.limit, params)

/-! ## `execute_natural_language_query` (lines 316–354)

Intent identification and SQL construction are total in the source (no
raising operation occurs on those paths), so the only failure site is the
database execution, which we take as an `Except`-valued parameter; by the
time it runs, `sql` and `params` are bound, which is why the `except`
branch can include them. -/

structure NLResult (ρ : Type) where
  success : Bool
  query : String
  sql : Option String
  params : Option (List SqlVal)
  results : List ρ
  count : Nat
  timeStart : Option Int
  timeEnd : Option Int
  error : Option String
  deriving Repr

def execute_natural_language_query {ρ : Type}
    (execQ : String → List SqlVal → Except String (List ρ))
    (now : PyNow) (query : String) : NLResult ρ :=
  let intent := identify_query_intent now query
  let sp := build_sql_query intent
  match execQ sp.1 sp.2 with
  | .ok rows =>
      { success := true, query := query, sql := some sp.1, params := some sp.2,
        results := rows, count := rows.length,
        timeStart := intent.timeStart, timeEnd := intent.timeEnd, error := none }
  | .error e =>
      { success := false, query := query, sql := some sp.1, params := some sp.2,
        results := [], count := 0, timeStart := none, timeEnd := none, error := some e }

/-! ## `QueryKnowledgeSystem` (`src/knowledge_system.py`)

The three relations the claims touch, as ordered association lists (rows
in rowid order).  `md5` is an uninterpreted `String → String` parameter:
every theorem below holds for an arbitrary hash function. -/

structure HRow where
  natural_query : String
  generated_sql : String
  execution_success : Bool
  execution_time_ms : Option ℚ
  result_count : Option Int
  provider_used : Option String
  model_used : Option String
  confidence_score : ℚ
  error_message : Option String
  query_hash : String
  deriving Repr, DecidableEq

structure VRow where
  term : String
  sql_mapping : String
  usage_count : Nat
  confidence : ℚ
  deriving Repr, DecidableEq

structure QPRow where
  pattern_type : String
  example_nl : String
  example_sql : String
  usage_count : Nat
  success_rate : ℚ
  deriving Repr, DecidableEq

structure KState where
  history : List HRow
  vocab : List VRow
  patterns : List QPRow
  deriving Repr

/-- `re.sub(r'\s+', ' ', s)`: collapse each maximal whitespace run to one
space (state-machine form of the regex substitution). -/
def cwsAux : Bool → List Char → List Char
  | _, [] => []
  | prevSp, c :: rest =>
      if isSpaceChar c then
        if prevSp then cwsAux true rest else ' ' :: cwsAux true rest
      else c :: cwsAux false rest

/-- `QueryKnowledgeSystem._hash_query` normalisation (line 389):
`re.sub(r'\s+', ' ', query.lower().strip())`. -/
def normalizeQuery (q : String) : String :=
  String.mk (cwsAux false (stripChars (lowerStr q).data))

def hashQuery (md5 : String → String) (q : String) : String := md5 (normalizeQuery q)

/-- `\b[a-zA-Z]{3,}\b` token split: maximal `\w` runs that are entirely
alphabetic and at least 3 long (a shorter or mixed run is flanked by word
characters, so the regex cannot match inside it). `fuel ≥ length` makes
the recursion structural. -/
def wordRunsF : Nat → List Char → List (List Char)
  | 0, _ => []
  | fuel + 1, t =>
      match t with
      | [] => []
      | c :: rest =>
          if isWordChar c then
            (c :: rest.takeWhile isWordChar) :: wordRunsF fuel (rest.dropWhile isWordChar)
          else wordRunsF fuel rest

/-- NL tokens of `_learn_vocabulary` (line 321). -/
def nlTokens (q : String) : List String :=
  ((wordRunsF ((lowerStr q).data.length + 1) (lowerStr q).data).filter
    (fun r => decide (3 ≤ r.length) && r.all Char.isAlpha)).map String.mk

/-- `\bFROM\s+(\w+)|JOIN\s+(\w+)` (line 324), `re.findall` with IGNORECASE;
either alternative's capture is the referenced table. -/
def fromJoinRe : Regex :=
  [ [.wb, lit "from", .ws1, .wordCap], [lit "join", .ws1, .wordCap] ]

def sqlTables (sql : String) : List String := findAllCaps fromJoinRe sql.data

/-! ### `difflib.SequenceMatcher.ratio` (`_similarity_score`, line 399)

Ratcliff–Obershelp: recursively sum the lengths of longest matching
blocks; ratio = 2·M/(|a|+|b|).  Ties in `find_longest_match` go to the
lexicographically first (i, j); with no junk (both strings are short,
so `autojunk` never fires) this is exactly difflib's tie-break.  The
`> 0.7` float comparison is modelled exactly in ℚ: with block sums over
strings this short the two sides can never be closer than 1/3600 except
when exactly equal, so double rounding cannot flip the comparison. -/

/-- Common prefix length. -/
def cpl : List Char → List Char → Nat
  | a :: as, b :: bs => if a == b then cpl as bs + 1 else 0
  | _, _ => 0

/-- Longest matching block of `a` and `b`: (i, j, length), first maximal
block in lexicographic (i, j) order. -/
def flm (a b : List Char) : Nat × Nat × Nat :=
  (List.range (a.length)).foldl
    (fun best i =>
      (List.range (b.length)).foldl
        (fun best j =>
          let k := cpl (a.drop i) (b.drop j)
          if k > best.2.2 then (i, j, k) else best)
        best)
    (0, 0, 0)

/-- Total size of all matching blocks.  Each recursive call strictly
shrinks the `a`-side, so `a.length + 1` fuel suffices. -/
def msumF : Nat → List Char → List Char → Nat
  | 0, _, _ => 0
  | fuel + 1, a, b =>
      let (i, j, k) := flm a b
      if k = 0 then 0
      else msumF fuel (a.take i) (b.take j) + k + msumF fuel (a.drop (i + k)) (b.drop (j + k))

def matchSum (a b : List Char) : Nat := msumF (a.length + 1) a b

/-- `SequenceMatcher(None, t1.lower(), t2.lower()).ratio() > 0.7`,
as the exact rational comparison `2M/(|a|+|b|) > 7/10`. -/
def simGT07 (t1 t2 : String) : Bool :=
  let a := (lowerStr t1).data
  let b := (lowerStr t2).data
  20 * matchSum a b > 7 * (a.length + b.length)

/-- `_learn_vocabulary`'s stopword skip list (line 329). -/
def learnStops : List String := ["show", "get", "find", "list", "what", "which", "where"]

/-- The (token, table) pairs the `_learn_vocabulary` loop upserts, in loop
order (token-major, lines 328–336). -/
def simPairs (nq sql : String) : List (String × String) :=
  ((nlTokens nq).filter (fun t => !learnStops.contains t)).flatMap
    (fun t => (sqlTables sql).filterMap
      (fun tab => if simGT07 t tab then some (t, tab) else none))

/-- `_update_vocabulary` (lines 355–367): `INSERT OR REPLACE` against
`UNIQUE(term)`, with `COALESCE` subselects computed first — an upsert that
bumps `usage_count` by 1 and `confidence` by 0.1, or seeds (1, 0.6). -/
def updateVocab (v : List VRow) (term sqlMapping : String) : List VRow :=
  match v.find? (fun r => r.term = term) with
  | some old =>
      v.filter (fun r => r.term ≠ term) ++
        [⟨term, sqlMapping, old.usage_count + 1, old.confidence + 1/10⟩]
  | none => v ++ [⟨term, sqlMapping, 1, 6/10⟩]

/-- `_learn_vocabulary` (lines 316–336). -/
def learnVocabulary (nq sql : String) (v : List VRow) : List VRow :=
  (simPairs nq sql).foldl (fun acc p => updateVocab acc p.1 p.2) v

/-- NL / SQL pattern tests of `_learn_query_patterns` (lines 338–353). -/
def timeNLRe : Regex :=
  [ [.wb, lit "today", .wb], [.wb, lit "yesterday", .wb],
    [.wb, lit "last", .ws1, lit "week", .wb], [.wb, lit "this", .ws1, lit "month", .wb] ]

def aggNLRe : Regex :=
  [ [.wb, lit "count", .wb], [.wb, lit "sum", .wb], [.wb, lit "average", .wb],
    [.wb, lit "max", .wb], [.wb, lit "min", .wb], [.wb, lit "how", .ws1, lit "many", .wb] ]

def aggSQLRe : Regex :=
  [ [.wb, lit "count", .wb], [.wb, lit "sum", .wb], [.wb, lit "avg", .wb],
    [.wb, lit "max", .wb], [.wb, lit "min", .wb] ]

/-- `WHERE.*timestamp.*>=.*DATE` (IGNORECASE): the literals contain no
newline and `.` does not cross one, so the regex matches iff some line
contains the four literals in order. -/
def findSubFrom (t pat : List Char) : Nat → Nat → Option Nat
  | 0, _ => none
  | fuel + 1, i =>
      if (sliceChars t i pat.length).map Char.toLower == pat then some (i + pat.length)
      else if i < t.length then findSubFrom t pat fuel (i + 1) else none

def inOrderFrom (t : List Char) : Nat → List (List Char) → Bool
  | _, [] => true
  | i, pat :: pats =>
      match findSubFrom t pat (t.length + 1) i with
      | some e => inOrderFrom t e pats
      | none => false

def splitLinesF : Nat → List Char → List (List Char)
  | 0, t => [t]
  | fuel + 1, t =>
      match t.dropWhile (· ≠ '\n') with
      | [] => [t]
      | _ :: rest => t.takeWhile (· ≠ '\n') :: splitLinesF fuel rest

def timestampSQLMatch (sql : String) : Bool :=
  (splitLinesF (sql.data.length + 1) sql.data).any
    (fun line => inOrderFrom line 0 ["where".data, "timestamp".data, ">=".data, "date".data])

/-- `_update_query_pattern` (lines 369–383): the table has no uniqueness
constraint, so `INSERT OR REPLACE` plainly inserts a new row, with
`usage_count` seeded from the first existing (pattern_type, example_nl)
row plus one. -/
def updateQueryPattern (ps : List QPRow) (ptype nq sql : String) : List QPRow :=
  let u := match ps.find? (fun r => r.pattern_type = ptype ∧ r.example_nl = nq) with
    | some old => old.usage_count + 1
    | none => 1
  ps ++ [⟨ptype, nq, sql, u, 1⟩]

/-- `_learn_query_patterns` (lines 338–353). -/
def learnQueryPatterns (nq sql : String) (ps : List QPRow) : List QPRow :=
  let ps1 :=
    if (reSearch timeNLRe nq.data).isSome && timestampSQLMatch sql then
      updateQueryPattern ps "time_filter" nq sql
    else ps
  if (reSearch aggNLRe nq.data).isSome && (reSearch aggSQLRe sql.data).isSome then
    updateQueryPattern ps1 "aggregation" nq sql
  else ps1

/-- Optional metadata of `record_query` (provider info etc.). -/
structure RecordArgs where
  execution_time_ms : Option ℚ
  result_count : Option Int
  provider : Option String
  model : Option String
  confidence : ℚ              -- provider_info.get('confidence', 0.5), else 0.5
  error_message : Option String
  deriving Repr

/-- `QueryKnowledgeSystem.record_query` (lines 95–136): upsert the history
row keyed by `UNIQUE(query_hash, generated_sql)` (`INSERT OR REPLACE`
deletes every conflicting row and appends the fresh one), then learn from
the query when it succeeded. -/
def record_query (md5 : String → String) (st : KState)
    (nq sql : String) (success : Bool) (args : RecordArgs) : KState :=
  let h := hashQuery md5 nq
  let row : HRow :=
    { natural_query := nq, generated_sql := sql, execution_success := success,
      execution_time_ms := args.execution_time_ms, result_count := args.result_count,
      provider_used := args.provider, model_used := args.model,
      confidence_score := args.confidence, error_message := args.error_message,
      query_hash := h }
  let history :=
    st.history.filter (fun r => ¬(r.query_hash = h ∧ r.generated_sql = sql)) ++ [row]
  if success then
    { history := history, vocab := learnVocabulary nq sql st.vocab,
      patterns := learnQueryPatterns nq sql st.patterns }
  else { st with history := history }

/-- Comparator of `ORDER BY usage_count DESC, confidence DESC`. -/
def vrowGT (a b : VRow) : Bool :=
  a.usage_count > b.usage_count ∨ (a.usage_count = b.usage_count ∧ a.confidence > b.confidence)

/-- `QueryKnowledgeSystem.get_domain_vocabulary` (lines 229–249): the
`term → sql_mapping` dict built from rows with `confidence > 0.3`, in
`ORDER BY usage_count DESC, confidence DESC` order. -/
def get_domain_vocabulary (v : List VRow) : List (String × String) :=
  (sortDesc vrowGT (v.filter (fun r => r.confidence > 3/10))).map
    (fun r => (r.term, r.sql_mapping))

/-! ## `LLMProviderManager.generate_sql` (`src/llm_providers.py`, 332–358)

Provider behaviour on one call is a function `outcome : String → Option α`
(`some` = the provider's result, `none` = the provider raised). -/

structure MState where
  providers : List String   -- keys of self.providers (available providers)
  order : List String       -- self.provider_order
  current : Option String   -- self.current_provider
  deriving Repr, DecidableEq

/-- The fallback loop: first provider in `order` that is available, is not
`current`, and succeeds. -/
def tryFallback (outcome : String → Option α) (providers : List String)
    (current : Option String) : List String → Option (α × String)
  | [] => none
  | p :: rest =>
      if p ∈ providers ∧ current ≠ some p then
        match outcome p with
        | some r => some (r, p)
        | none => tryFallback outcome providers current rest
      else tryFallback outcome providers current rest

/-- `generate_sql`: try `current` first; on failure walk `fallback_order`,
and a succeeding fallback becomes the new `current`; if everything fails
the method raises. -/
def generate_sql (st : MState) (outcome : String → Option α) :
    Except String (α × MState) :=
  let primary : Option α :=
    match st.current with
    | some c => if c ∈ st.providers then outcome c else none
    | none => none
  match primary with
  | some r => .ok (r, st)
  | none =>
      match tryFallback outcome st.providers st.current st.order with
      | some (r, p) => .ok (r, { st with current := some p })
      | none => .error "All LLM providers failed to generate SQL"

/-! # Theorems -/

/-! ## C8 — sticky provider selection -/

lemma tryFallback_skip {α : Type} (outcome : String → Option α)
    (providers : List String) (current : Option String) (pre rest : List String)
    (h : ∀ q ∈ pre, q ∈ providers → current ≠ some q → outcome q = none) :
    tryFallback outcome providers current (pre ++ rest)
      = tryFallback outcome providers current rest := by
  induction pre with
  | nil => rfl
  | cons q qs ih =>
      simp only [List.cons_append, tryFallback]
      by_cases hc : q ∈ providers ∧ current ≠ some q
      · rw [if_pos hc, h q (by simp) hc.1 hc.2]
        exact ih fun x hx => h x (by simp [hx])
      · rw [if_neg hc]
        exact ih fun x hx => h x (by simp [hx])

lemma tryFallback_none {α : Type} (outcome : String → Option α)
    (providers : List String) (current : Option String) (l : List String)
    (h : ∀ q ∈ l, q ∈ providers → current ≠ some q → outcome q = none) :
    tryFallback outcome providers current l = none := by
  have := tryFallback_skip outcome providers current l [] h
  simpa using this

/-- C8.  Provider selection in `LLMProviderManager.generate_sql` is sticky:
(1) if `current_provider` is an available provider and succeeds, the call
returns its result and `current_provider` is unchanged; (2) if the primary
attempt fails, the fallback walks `fallback_order` in order, skipping
`current`, and the first available provider that succeeds becomes the new
`current_provider`; (3) if the primary attempt and every provider in
`fallback_order` fail, the call raises `"All LLM providers failed to
generate SQL"`. -/
theorem generate_sql_sticky :
    (∀ (α : Type) (st : MState) (outcome : String → Option α) (c : String) (r : α),
      st.current = some c → c ∈ st.providers → outcome c = some r →
      generate_sql st outcome = .ok (r, st))
    ∧ (∀ (α : Type) (st : MState) (outcome : String → Option α)
        (pre post : List String) (p : String) (r : α),
      (∀ c, st.current = some c → c ∈ st.providers → outcome c = none) →
      st.order = pre ++ p :: post →
      (∀ q ∈ pre, q ∈ st.providers → st.current ≠ some q → outcome q = none) →
      p ∈ st.providers → st.current ≠ some p → outcome p = some r →
      generate_sql st outcome = .ok (r, { st with current := some p }))
    ∧ (∀ (α : Type) (st : MState) (outcome : String → Option α),
      (∀ c, st.current = some c → c ∈ st.providers → outcome c = none) →
      (∀ q ∈ st.order, q ∈ st.providers → st.current ≠ some q → outcome q = none) →
      generate_sql st outcome = .error "All LLM providers failed to generate SQL") := by
  refine ⟨?_, ?_, ?_⟩
  · intro α st outcome c r hc hmem hout
    simp [generate_sql, hc, hmem, hout]
  · intro α st outcome pre post p r hprim horder hpre hmem hne hout
    have hprimNone :
        (match st.current with
          | some c => if c ∈ st.providers then outcome c else none
          | none => none) = (none : Option α) := by
      cases hcur : st.current with
      | none => rfl
      | some c =>
          by_cases hm : c ∈ st.providers
          · simp [hm, hprim c hcur hm]
          · simp [hm]
    simp only [generate_sql, hprimNone, horder]
    rw [tryFallback_skip outcome st.providers st.current pre (p :: post) hpre]
    simp [tryFallback, hmem, hne, hout]
  · intro α st outcome hprim hall
    have hprimNone :
        (match st.current with
          | some c => if c ∈ st.providers then outcome c else none
          | none => none) = (none : Option α) := by
      cases hcur : st.current with
      | none => rfl
      | some c =>
          by_cases hm : c ∈ st.providers
          · simp [hm, hprim c hcur hm]
          · simp [hm]
    simp only [generate_sql, hprimNone]
    rw [tryFallback_none outcome st.providers st.current st.order hall]

/-- Witness for C8: with `claude` current-but-failing and `openai`
succeeding, the call returns openai's result and the manager switches to
it. -/
theorem generate_sql_sticky_witness :
    generate_sql ⟨["claude", "openai"], ["claude", "openai"], some "claude"⟩
        (fun p => if p = "openai" then some 1 else none)
      = .ok (1, ⟨["claude", "openai"], ["claude", "openai"], some "openai"⟩) := by
  have h := generate_sql_sticky.2.1 Nat
      ⟨["claude", "openai"], ["claude", "openai"], some "claude"⟩
      (fun p => if p = "openai" then some 1 else none)
      ["claude"] [] "openai" 1
      (by intro c hc hm; simp at hc; subst hc; simp)
      rfl
      (by intro q hq hm hne; simp at hq; subst hq; simp at hne ⊢)
      (by simp) (by simp) (by simp)
  simpa using h

/-! ## C3 — `query_history` keeps one row per `(query_hash, generated_sql)` -/

/-- The dedup key of `UNIQUE(query_hash, generated_sql)`. -/
def historyKey (r : HRow) : String × String := (r.query_hash, r.generated_sql)

/-- No two rows share a dedup key. -/
def HistoryDedup (l : List HRow) : Prop :=
  l.Pairwise (fun r1 r2 => historyKey r1 ≠ historyKey r2)

/-- The row `record_query` writes. -/
def recordedRow (md5 : String → String) (nq sql : String) (success : Bool)
    (args : RecordArgs) : HRow :=
  { natural_query := nq, generated_sql := sql, execution_success := success,
    execution_time_ms := args.execution_time_ms, result_count := args.result_count,
    provider_used := args.provider, model_used := args.model,
    confidence_score := args.confidence, error_message := args.error_message,
    query_hash := hashQuery md5 nq }

lemma record_query_history (md5 : String → String) (st : KState)
    (nq sql : String) (success : Bool) (args : RecordArgs) :
    (record_query md5 st nq sql success args).history
      = st.history.filter
          (fun r => ¬(r.query_hash = hashQuery md5 nq ∧ r.generated_sql = sql))
        ++ [recordedRow md5 nq sql success args] := by
  unfold record_query recordedRow
  cases success <;> simp

/-- C3.  (1) Every `record_query` call preserves the at-most-one-row-per-key
invariant; (2) after any `record_query`, the rows carrying the newly
written key are exactly the one fresh row — so re-recording a query whose
normalised text hashes to the same value, with the same generated SQL,
replaces the stored row's fields instead of adding a second row. -/
theorem record_query_upsert :
    (∀ (md5 : String → String) (st : KState) (nq sql : String) (success : Bool)
       (args : RecordArgs),
      HistoryDedup st.history →
      HistoryDedup (record_query md5 st nq sql success args).history)
    ∧ (∀ (md5 : String → String) (st : KState) (nq sql : String) (success : Bool)
       (args : RecordArgs),
      (record_query md5 st nq sql success args).history.filter
          (fun r => historyKey r = (hashQuery md5 nq, sql))
        = [recordedRow md5 nq sql success args]) := by
  constructor
  · intro md5 st nq sql success args hd
    rw [HistoryDedup, record_query_history]
    apply List.pairwise_append.mpr
    refine ⟨hd.sublist (List.filter_sublist _), by simp, ?_⟩
    intro x hx y hy
    simp only [List.mem_singleton] at hy
    subst hy
    have hx' := (List.mem_filter.mp hx).2
    simp only [decide_not, Bool.not_eq_true', decide_eq_false_iff_not] at hx'
    intro hk
    apply hx'
    have h1 : x.query_hash = hashQuery md5 nq := congrArg Prod.fst hk
    have h2 : x.generated_sql = sql := congrArg Prod.snd hk
    exact ⟨h1, h2⟩
  · intro md5 st nq sql success args
    rw [record_query_history, List.filter_append]
    have h1 : (st.history.filter
        (fun r => ¬(r.query_hash = hashQuery md5 nq ∧ r.generated_sql = sql))).filter
          (fun r => historyKey r = (hashQuery md5 nq, sql)) = [] := by
      rw [List.filter_filter, List.filter_eq_nil_iff]
      intro r _
      simp only [historyKey, Prod.mk.injEq, Bool.and_eq_true, decide_eq_true_eq,
        decide_not, Bool.not_eq_true', decide_eq_false_iff_not, not_and]
      intro hk hn
      exact (hn hk.1 hk.2).elim
    have h2 : [recordedRow md5 nq sql success args].filter
        (fun r => historyKey r = (hashQuery md5 nq, sql))
          = [recordedRow md5 nq sql success args] := by
      simp [recordedRow, historyKey]
    rw [h1, h2, List.nil_append]

/-- Witness for C3: recording twice on an initially empty store leaves a
single row for the key, carrying the second call's fields. -/
theorem record_query_upsert_witness :
    HistoryDedup (record_query id
        (record_query id ⟨[], [], []⟩ "Show signals" "SELECT 1" false
          ⟨none, none, none, none, 1/2, some "boom"⟩)
        "show  SIGNALS" "SELECT 1" false
        ⟨some 3, some 0, some "claude", none, 9/10, none⟩).history
    ∧ (record_query id
        (record_query id ⟨[], [], []⟩ "Show signals" "SELECT 1" false
          ⟨none, none, none, none, 1/2, some "boom"⟩)
        "show  SIGNALS" "SELECT 1" false
        ⟨some 3, some 0, some "claude", none, 9/10, none⟩).history.filter
          (fun r => historyKey r = (hashQuery id "show  SIGNALS", "SELECT 1"))
        = [recordedRow id "show  SIGNALS" "SELECT 1" false
            ⟨some 3, some 0, some "claude", none, 9/10, none⟩] := by
  constructor
  · exact record_query_upsert.1 id _ "show  SIGNALS" "SELECT 1" false
      ⟨some 3, some 0, some "claude", none, 9/10, none⟩
      (record_query_upsert.1 id ⟨[], [], []⟩ "Show signals" "SELECT 1" false
        ⟨none, none, none, none, 1/2, some "boom"⟩ (by simp [HistoryDedup]))
  · exact record_query_upsert.2 id _ "show  SIGNALS" "SELECT 1" false
      ⟨some 3, some 0, some "claude", none, 9/10, none⟩

/-! ## Ordering facts about the stable descending sort -/

lemma mem_insDesc (gt : α → α → Bool) (x : α) (l : List α) (a : α) :
    a ∈ insDesc gt x l ↔ a = x ∨ a ∈ l := by
  induction l with
  | nil => simp [insDesc]
  | cons y ys ih =>
      simp only [insDesc]
      cases h : gt x y
      · simp only [Bool.false_eq_true, if_false, List.mem_cons, ih]
        tauto
      · simp only [if_true, List.mem_cons]

lemma mem_sortDesc (gt : α → α → Bool) (l : List α) (a : α) :
    a ∈ sortDesc gt l ↔ a ∈ l := by
  suffices h : ∀ acc, a ∈ l.foldl (fun acc x => insDesc gt x acc) acc ↔ a ∈ acc ∨ a ∈ l by
    simpa [sortDesc] using h []
  induction l with
  | nil => simp
  | cons y ys ih =>
      intro acc
      simp only [List.foldl_cons, ih, mem_insDesc, List.mem_cons]
      tauto

lemma pairwise_insDesc (gt : α → α → Bool)
    (htrans : ∀ a b c, gt a b = true → gt b c = true → gt a c = true)
    (hasym : ∀ a b, gt a b = true → gt b a = false)
    (x : α) (l : List α) (hl : l.Pairwise (fun a b => gt b a = false)) :
    (insDesc gt x l).Pairwise (fun a b => gt b a = false) := by
  induction l with
  | nil => simp [insDesc]
  | cons y ys ih =>
      rcases List.pairwise_cons.mp hl with ⟨hy, hys⟩
      simp only [insDesc]
      cases h : gt x y
      · rw [if_neg (by simp)]
        apply List.pairwise_cons.mpr
        refine ⟨?_, ih hys⟩
        intro b hb
        rcases (mem_insDesc gt x ys b).mp hb with rfl | hb'
        · exact h
        · exact hy b hb'
      · rw [if_pos rfl]
        apply List.pairwise_cons.mpr
        refine ⟨?_, hl⟩
        intro b hb
        rcases List.mem_cons.mp hb with rfl | hb'
        · exact hasym x b h
        · cases hgt : gt b x
          · rfl
          · exact absurd (htrans b x y hgt h) (by simp [hy b hb'])

lemma pairwise_sortDesc (gt : α → α → Bool)
    (htrans : ∀ a b c, gt a b = true → gt b c = true → gt a c = true)
    (hasym : ∀ a b, gt a b = true → gt b a = false)
    (l : List α) :
    (sortDesc gt l).Pairwise (fun a b => gt b a = false) := by
  suffices h : ∀ acc, acc.Pairwise (fun a b => gt b a = false) →
      (l.foldl (fun acc x => insDesc gt x acc) acc).Pairwise (fun a b => gt b a = false) by
    exact h [] (by simp)
  induction l with
  | nil => intro acc h; simpa using h
  | cons y ys ih =>
      intro acc hacc
      exact ih _ (pairwise_insDesc gt htrans hasym y acc hacc)

/-! ## C10 — `get_domain_vocabulary` exposes only `confidence > 0.3`,
ordered by usage then confidence -/

lemma vrowGT_trans (a b c : VRow) (h1 : vrowGT a b = true) (h2 : vrowGT b c = true) :
    vrowGT a c = true := by
  simp only [vrowGT, decide_eq_true_eq] at *
  rcases h1 with h1 | ⟨h1e, h1c⟩ <;> rcases h2 with h2 | ⟨h2e, h2c⟩
  · exact Or.inl (h2.trans h1)
  · exact Or.inl (h2e ▸ h1)
  · exact Or.inl (h1e ▸ h2)
  · exact Or.inr ⟨h1e.trans h2e, h2c.trans h1c⟩

lemma vrowGT_asym (a b : VRow) (h : vrowGT a b = true) : vrowGT b a = false := by
  simp only [vrowGT, decide_eq_true_eq] at h
  simp only [vrowGT, decide_eq_false_iff_not, not_or, not_and, not_lt]
  rcases h with h | ⟨he, hc⟩
  · exact ⟨Nat.le_of_lt h, fun e => absurd e (by omega)⟩
  · exact ⟨Nat.le_of_eq he.symm, fun _ => le_of_lt hc⟩

/-- C10.  A stored vocabulary entry is visible through
`get_domain_vocabulary` iff its confidence is strictly above 0.3 (entries
at or below the threshold stay stored but are invisible), and the rows
behind the returned mapping are ordered by `usage_count` descending, then
`confidence` descending. -/
theorem get_domain_vocabulary_view :
    (∀ (v : List VRow) (t m : String),
      (t, m) ∈ get_domain_vocabulary v ↔
        ∃ r ∈ v, r.term = t ∧ r.sql_mapping = m ∧ r.confidence > 3/10)
    ∧ (∀ v : List VRow,
      (sortDesc vrowGT (v.filter (fun r => r.confidence > 3/10))).Pairwise
        (fun a b => b.usage_count < a.usage_count ∨
          (b.usage_count = a.usage_count ∧ b.confidence ≤ a.confidence)))
    ∧ (∀ v : List VRow,
      get_domain_vocabulary v
        = (sortDesc vrowGT (v.filter (fun r => r.confidence > 3/10))).map
            (fun r => (r.term, r.sql_mapping))) := by
  refine ⟨?_, ?_, fun _ => rfl⟩
  · intro v t m
    simp only [get_domain_vocabulary, List.mem_map, mem_sortDesc, List.mem_filter,
      Prod.mk.injEq, decide_eq_true_eq]
    constructor
    · rintro ⟨r, ⟨hrv, hc⟩, ht, hm⟩
      exact ⟨r, hrv, ht, hm, hc⟩
    · rintro ⟨r, hrv, ht, hm, hc⟩
      exact ⟨r, ⟨hrv, hc⟩, ht, hm⟩
  · intro v
    have h := pairwise_sortDesc vrowGT vrowGT_trans vrowGT_asym
      (v.filter (fun r => r.confidence > 3/10))
    apply h.imp
    intro a b hab
    simp only [vrowGT, decide_eq_false_iff_not, not_or, not_and, not_lt] at hab
    obtain ⟨h1, h2⟩ := hab
    rcases Nat.eq_or_lt_of_le h1 with he | hlt
    · exact Or.inr ⟨he, h2 he⟩
    · exact Or.inl hlt

/-! ## C9 — vocabulary upserts: `usage_count + 1`, `confidence + 0.1`, no cap -/

/-- Usage count and confidence of the vocabulary entry for `t`. -/
def lookupUC (v : List VRow) (t : String) : Option (Nat × ℚ) :=
  (v.find? (fun r => r.term = t)).map (fun r => (r.usage_count, r.confidence))

/-- One upsert's effect on (usage_count, confidence): bump an existing
entry by (1, 0.1), or seed (1, 0.6). -/
def bumpUC : Option (Nat × ℚ) → Nat × ℚ
  | some (u, c) => (u + 1, c + 1/10)
  | none => (1, 6/10)

/-- `k` consecutive upserts. -/
def applyUC : Nat → Option (Nat × ℚ) → Option (Nat × ℚ)
  | 0, o => o
  | k + 1, o => applyUC k (some (bumpUC o))

lemma find?_filter_ne (v : List VRow) (t term : String) (hne : t ≠ term) :
    (v.filter (fun r => r.term ≠ term)).find? (fun r => r.term = t)
      = v.find? (fun r => r.term = t) := by
  induction v with
  | nil => rfl
  | cons r rs ih =>
      by_cases hk : r.term = term
      · have hpr : ¬(r.term = t) := by rw [hk]; exact fun h => hne h.symm
        rw [List.filter_cons, if_neg (by simp [hk]), ih,
          List.find?_cons_of_neg _ (by simp [hpr])]
      · rw [List.filter_cons, if_pos (by simp [hk])]
        by_cases hr : r.term = t
        · rw [List.find?_cons_of_pos _ (by simp [hr]),
            List.find?_cons_of_pos _ (by simp [hr])]
        · rw [List.find?_cons_of_neg _ (by simp [hr]),
            List.find?_cons_of_neg _ (by simp [hr]), ih]

lemma lookupUC_updateVocab (v : List VRow) (term sm t : String) :
    lookupUC (updateVocab v term sm) t
      = if t = term then some (bumpUC (lookupUC v term)) else lookupUC v t := by
  unfold updateVocab
  cases hf : v.find? (fun r => r.term = term) with
  | none =>
      by_cases ht : t = term
      · subst ht
        rw [if_pos rfl]
        have h2 : ([(⟨t, sm, 1, 6/10⟩ : VRow)].find? (fun r => r.term = t))
            = some ⟨t, sm, 1, 6/10⟩ := List.find?_cons_of_pos _ (by simp)
        simp only [lookupUC, List.find?_append, hf, Option.none_or, h2, hf]
        simp [bumpUC]
      · rw [if_neg ht]
        simp only [lookupUC, List.find?_append]
        have h2 : ([(⟨term, sm, 1, 6/10⟩ : VRow)].find? (fun r => r.term = t)) = none := by
          exact List.find?_cons_of_neg _ (by simp [Ne.symm ht])
        rw [h2]
        cases v.find? (fun r => r.term = t) <;> rfl
  | some old =>
      by_cases ht : t = term
      · subst ht
        rw [if_pos rfl]
        have h1 : (v.filter (fun r => r.term ≠ t)).find? (fun r => r.term = t) = none := by
          rw [List.find?_eq_none]
          intro r hr
          have h2 := (List.mem_filter.mp hr).2
          simpa using h2
        have h2 : ([(⟨t, sm, old.usage_count + 1, old.confidence + 1/10⟩ : VRow)].find?
            (fun r => r.term = t)) = some ⟨t, sm, old.usage_count + 1, old.confidence + 1/10⟩ :=
          List.find?_cons_of_pos _ (by simp)
        simp only [lookupUC, List.find?_append, h1, Option.none_or, h2, hf]
        simp [bumpUC]
      · rw [if_neg ht]
        simp only [lookupUC, List.find?_append, find?_filter_ne v t term ht]
        have h2 : ([(⟨term, sm, old.usage_count + 1, old.confidence + 1/10⟩ : VRow)].find?
            (fun r => r.term = t)) = none := by
          exact List.find?_cons_of_neg _ (by simp [Ne.symm ht])
        rw [h2]
        cases v.find? (fun r => r.term = t) <;> rfl

lemma lookupUC_learn_fold (ps : List (String × String)) (v : List VRow) (t : String) :
    lookupUC (ps.foldl (fun acc p => updateVocab acc p.1 p.2) v) t
      = applyUC (ps.countP (fun p => p.1 = t)) (lookupUC v t) := by
  induction ps generalizing v with
  | nil => simp [applyUC]
  | cons p rest ih =>
      simp only [List.foldl_cons, List.countP_cons]
      by_cases hp : p.1 = t
      · subst hp
        rw [ih]
        have : lookupUC (updateVocab v p.1 p.2) p.1 = some (bumpUC (lookupUC v p.1)) := by
          rw [lookupUC_updateVocab]; simp
        rw [this]
        simp [applyUC]
      · rw [ih, lookupUC_updateVocab, if_neg (fun h => hp h.symm)]
        simp [hp]

lemma lookupUC_learnVocabulary (nq sql : String) (v : List VRow) (t : String) :
    lookupUC (learnVocabulary nq sql v) t
      = applyUC ((simPairs nq sql).countP (fun p => p.1 = t)) (lookupUC v t) :=
  lookupUC_learn_fold (simPairs nq sql) v t

/-- C9.  When a successful query is learned from, (1) the processed
(token, table) pairs are exactly the stopword-filtered alphabetic NL
tokens paired with the SQL's FROM/JOIN tables whose similarity exceeds
0.7; (2) the vocabulary entry of a term hit by exactly one such pair has
its usage_count incremented by 1 and its confidence incremented by the
fixed step 0.1 (seeded at (1, 0.6) when absent); (3) there is no upper
bound: six learnings of the same pair from an empty store drive the
confidence to 1.1 > 1. -/
theorem learn_vocabulary_upsert :
    (∀ (nq sql t tab : String),
      (t, tab) ∈ simPairs nq sql ↔
        (t ∈ nlTokens nq ∧ t ∉ learnStops ∧ tab ∈ sqlTables sql ∧ simGT07 t tab = true))
    ∧ (∀ (nq sql : String) (v : List VRow) (t : String),
      lookupUC (learnVocabulary nq sql v) t
        = applyUC ((simPairs nq sql).countP (fun p => p.1 = t)) (lookupUC v t))
    ∧ (∀ (nq sql : String) (v : List VRow) (t : String) (u : Nat) (c : ℚ),
      (simPairs nq sql).countP (fun p => p.1 = t) = 1 →
      lookupUC v t = some (u, c) →
      lookupUC (learnVocabulary nq sql v) t = some (u + 1, c + 1/10))
    ∧ (∀ (nq sql : String) (v : List VRow) (t : String),
      (simPairs nq sql).countP (fun p => p.1 = t) = 1 →
      lookupUC v t = none →
      lookupUC (learnVocabulary nq sql v) t = some (1, 6/10))
    ∧ (lookupUC
        (learnVocabulary "signalvalue data" "SELECT * FROM SIGNALVALUE"
          (learnVocabulary "signalvalue data" "SELECT * FROM SIGNALVALUE"
            (learnVocabulary "signalvalue data" "SELECT * FROM SIGNALVALUE"
              (learnVocabulary "signalvalue data" "SELECT * FROM SIGNALVALUE"
                (learnVocabulary "signalvalue data" "SELECT * FROM SIGNALVALUE"
                  (learnVocabulary "signalvalue data" "SELECT * FROM SIGNALVALUE" []))))))
        "signalvalue" = some (6, 11/10) ∧ (1 : ℚ) < 11/10) := by
  refine ⟨?_, ?_, ?_, ?_, ?_, by norm_num⟩
  · intro nq sql t tab
    simp only [simPairs, List.mem_flatMap, List.mem_filterMap, List.mem_filter,
      Bool.not_eq_true']
    constructor
    · rintro ⟨x, ⟨hx, hstop⟩, y, hy, hcond⟩
      by_cases hs : simGT07 x y = true
      · rw [if_pos hs] at hcond
        obtain ⟨rfl, rfl⟩ := Prod.mk.injEq .. ▸ Option.some_inj.mp hcond
        exact ⟨hx, by simpa using hstop, hy, hs⟩
      · rw [if_neg hs] at hcond
        exact absurd hcond (by simp)
    · rintro ⟨hx, hstop, hy, hs⟩
      exact ⟨t, ⟨hx, by simpa using hstop⟩, tab, hy, by rw [if_pos hs]⟩
  · intro nq sql v t
    exact lookupUC_learnVocabulary nq sql v t
  · intro nq sql v t u c hcount hold
    rw [lookupUC_learnVocabulary, hcount, hold]
    simp [applyUC, bumpUC]
  · intro nq sql v t hcount hold
    rw [lookupUC_learnVocabulary, hcount, hold]
    simp [applyUC, bumpUC]
  · have hc : (simPairs "signalvalue data" "SELECT * FROM SIGNALVALUE").countP
        (fun p => p.1 = "signalvalue") = 1 := by decide
    rw [lookupUC_learnVocabulary, hc, lookupUC_learnVocabulary, hc,
      lookupUC_learnVocabulary, hc, lookupUC_learnVocabulary, hc,
      lookupUC_learnVocabulary, hc, lookupUC_learnVocabulary, hc]
    have h0 : lookupUC [] "signalvalue" = none := rfl
    rw [h0]
    simp only [applyUC, bumpUC]
    norm_num

/-- Witness for C9: one learning of "show all signals now" against
`SELECT * FROM SIGNALITEM` seeds the entry for "signals" at (1, 0.6); a
second learning bumps it to (2, 0.7). -/
theorem learn_vocabulary_upsert_witness :
    lookupUC (learnVocabulary "show all signals now" "SELECT * FROM SIGNALITEM" [])
        "signals" = some (1, 6/10)
    ∧ lookupUC
        (learnVocabulary "show all signals now" "SELECT * FROM SIGNALITEM"
          (learnVocabulary "show all signals now" "SELECT * FROM SIGNALITEM" []))
        "signals" = some (1 + 1, 6/10 + 1/10) := by
  constructor
  · exact learn_vocabulary_upsert.2.2.2.1 "show all signals now" "SELECT * FROM SIGNALITEM"
      [] "signals" (by decide) rfl
  · exact learn_vocabulary_upsert.2.2.1 "show all signals now" "SELECT * FROM SIGNALITEM"
      _ "signals" 1 (6/10) (by decide)
      (learn_vocabulary_upsert.2.2.2.1 "show all signals now" "SELECT * FROM SIGNALITEM"
        [] "signals" (by decide) rfl)


/-! ## C2 — bind-placeholder arity and value/text separation in
`build_sql_query` -/

/-- Number of `?` bind placeholders in a piece of SQL text. -/
def countQ (s : String) : Nat := s.data.count '?'

lemma countQ_append (a b : String) : countQ (a ++ b) = countQ a + countQ b := by
  simp [countQ, List.count_append]

/-- `Nat.digitChar` for arguments 16 and above is `'*'`. -/
lemma digitChar_big (n : Nat) (h : 16 ≤ n) : Nat.digitChar n = '*' := by
  unfold Nat.digitChar
  repeat rw [if_neg (by omega)]

/-- The characters `Nat.digitChar` can ever produce (hex digits and the
overflow star); the split keeps the list in two halves. -/
def benignChars : List Char :=
  ['0','1','2','3','4','5','6','7'] ++ ['8','9','a','b','c','d','e','f','*']

/-- Characters of `Nat.digitChar` output: always a hex digit or `'*'`. -/
lemma digitChar_benign (n : Nat) :
    Nat.digitChar n ∈
      benignChars := by
  by_cases h : n < 16
  · interval_cases n <;> decide
  · rw [digitChar_big n (by omega)]
    decide

lemma toDigitsCore_benign (b fuel n : Nat) (ds : List Char)
    (hds : ∀ c ∈ ds, c ∈ benignChars) :
    ∀ c ∈ Nat.toDigitsCore b fuel n ds,
      c ∈ benignChars := by
  induction fuel generalizing n ds with
  | zero => exact hds
  | succ fuel ih =>
      intro c hc
      rw [Nat.toDigitsCore] at hc
      by_cases hz : n / b = 0
      · rw [if_pos hz] at hc
        rcases List.mem_cons.mp hc with rfl | hcd
        · exact digitChar_benign _
        · exact hds c hcd
      · rw [if_neg hz] at hc
        refine ih _ _ ?_ c hc
        intro x hx
        rcases List.mem_cons.mp hx with rfl | hxd
        · exact digitChar_benign _
        · exact hds x hxd

/-- The decimal rendering of a `Nat` (the `LIMIT` count) contains only
digit characters. -/
lemma repr_benign (n : Nat) :
    ∀ c ∈ (Nat.repr n).data,
      c ∈ benignChars := by
  intro c hc
  have h : (Nat.repr n).data = Nat.toDigits 10 n := rfl
  rw [h, Nat.toDigits] at hc
  exact toDigitsCore_benign 10 (n + 1) n [] (by simp) c hc

lemma countQ_repr (n : Nat) : countQ (Nat.repr n) = 0 := by
  rw [countQ, List.count_eq_zero]
  intro h
  exact absurd (repr_benign n '?' h) (by decide)

lemma countQ_limitClause (l : Option Nat) : countQ (limitClauseOf l) = 0 := by
  match l with
  | none => rfl
  | some n =>
      simp only [limitClauseOf]
      by_cases h : n = 0
      · rw [if_pos h]; rfl
      · rw [if_neg h, countQ_append, countQ_repr]
        rfl

lemma countQ_joinAnd (l : List String) :
    countQ (joinSep " AND " l) = (l.map countQ).sum := by
  match l with
  | [] => rfl
  | [x] => simp [joinSep]
  | x :: y :: xs =>
      have ih := countQ_joinAnd (y :: xs)
      have hsep : countQ " AND " = 0 := by decide
      simp only [joinSep] at ih ⊢
      rw [countQ_append, countQ_append, hsep, ih]
      simp

lemma countQ_filterFrag (f : QFilter) (hcol : countQ f.column = 0)
    (hop : countQ f.op = 0) :
    countQ (filterFrag f).1 = (filterFrag f).2.length := by
  have hb2 : countQ " BETWEEN ? AND ?" = 2 := by decide
  have h1 : countQ " ?" = 1 := by decide
  have hsp : countQ " " = 0 := by decide
  have hlk : countQ " LIKE ?" = 1 := by decide
  unfold filterFrag
  by_cases hb : f.op = "BETWEEN"
  · rw [if_pos hb]
    cases f.value with
    | listv lo hi =>
        show countQ (f.column ++ " BETWEEN ? AND ?") = 2
        rw [countQ_append, hcol, hb2]
    | num x =>
        show countQ (f.column ++ " " ++ f.op ++ " ?") = 1
        rw [countQ_append, countQ_append, countQ_append, hcol, hsp, hop, h1]
    | str s =>
        show countQ (f.column ++ " " ++ f.op ++ " ?") = 1
        rw [countQ_append, countQ_append, countQ_append, hcol, hsp, hop, h1]
    | time m =>
        show countQ (f.column ++ " " ++ f.op ++ " ?") = 1
        rw [countQ_append, countQ_append, countQ_append, hcol, hsp, hop, h1]
  · rw [if_neg hb]
    by_cases hl : f.op = "LIKE"
    · rw [if_pos hl]
      show countQ (f.column ++ " LIKE ?") = 1
      rw [countQ_append, hcol, hlk]
    · rw [if_neg hl]
      show countQ (f.column ++ " " ++ f.op ++ " ?") = 1
      rw [countQ_append, countQ_append, countQ_append, hcol, hsp, hop, h1]

lemma countQ_selectClause (agg : Option String) (primary : String)
    (ha : ∀ a, agg = some a → countQ a = 0) :
    countQ (selectClauseOf agg primary) = 0 := by
  cases agg with
  | none =>
      unfold selectClauseOf
      split_ifs <;> decide
  | some a =>
      have ha' := ha a rfl
      have h1 : countQ "SELECT " = 0 := by decide
      have h2 : countQ "(SIGNUMVALUE)" = 0 := by decide
      have h3 : countQ "(NUMVALUE)" = 0 := by decide
      simp only [selectClauseOf]
      split_ifs
      · decide
      · rw [countQ_append, countQ_append, h1, h2, ha']
      · rw [countQ_append, countQ_append, h1, h3, ha']
      · decide

lemma countQ_fromClause (primary : String) (ts te : Option Int)
    (hp : countQ primary = 0) :
    countQ (fromTimeOf primary ts te).1 = 0 := by
  have hf : countQ " FROM " = 0 := by decide
  have hj : countQ " JOIN PROCINSTANCE ON REPDATA.PINSTID = PROCINSTANCE.PINSTID" = 0 := by
    decide
  cases ts with
  | none => simp only [fromTimeOf]; rw [countQ_append, hf, hp]
  | some s =>
      cases te with
      | none => simp only [fromTimeOf]; rw [countQ_append, hf, hp]
      | some e =>
          simp only [fromTimeOf]
          split_ifs
          · rw [countQ_append, hf, hp]
          · rw [countQ_append, countQ_append, hf, hp, hj]
          · rw [countQ_append, hf, hp]

/-- The time-range WHERE fragments carry exactly as many `?` as the time
bind parameters they come with. -/
lemma countQ_timeConds (primary : String) (ts te : Option Int) :
    ((fromTimeOf primary ts te).2.1.map countQ).sum
      = (fromTimeOf primary ts te).2.2.length := by
  cases ts with
  | none => rfl
  | some s =>
      cases te with
      | none => rfl
      | some e =>
          simp only [fromTimeOf]
          split_ifs <;> dsimp only <;>
            simp only [List.map_cons, List.map_nil, List.sum_cons, List.sum_nil,
              List.length_cons, List.length_nil] <;> decide

/-- Shape of a filter condition: column, operator, and whether the value
is a 2-element list — everything `build_sql_query` reads besides the
value itself. -/
def QFilter.shape (f : QFilter) : String × String × Bool :=
  (f.column, f.op, match f.value with | .listv _ _ => true | _ => false)

lemma filterFrag_fst_shape (f g : QFilter) (h : QFilter.shape f = QFilter.shape g) :
    (filterFrag f).1 = (filterFrag g).1 := by
  have hc : f.column = g.column := congrArg (fun s => s.1) h
  have ho : f.op = g.op := congrArg (fun s => s.2.1) h
  have hv := congrArg (fun s => s.2.2) h
  unfold filterFrag
  rw [hc, ho]
  by_cases hb : g.op = "BETWEEN"
  · rw [if_pos hb, if_pos hb]
    cases hfv : f.value <;> cases hgv : g.value <;> simp_all [QFilter.shape]
  · rw [if_neg hb, if_neg hb]
    split_ifs <;> rfl

lemma filters_fst_of_shape : ∀ (l1 l2 : List QFilter),
    l1.map QFilter.shape = l2.map QFilter.shape →
    (l1.map filterFrag).map Prod.fst = (l2.map filterFrag).map Prod.fst := by
  intro l1
  induction l1 with
  | nil =>
      intro l2 h
      cases l2 with
      | nil => rfl
      | cons g gs => simp at h
  | cons f fs ih =>
      intro l2 h
      cases l2 with
      | nil => simp at h
      | cons g gs =>
          simp only [List.map_cons, List.cons.injEq] at h ⊢
          exact ⟨filterFrag_fst_shape f g h.1, ih gs h.2⟩

lemma fromTimeOf_shape (p : String) (ts1 te1 ts2 te2 : Option Int)
    (h : (ts1.isSome && te1.isSome) = (ts2.isSome && te2.isSome)) :
    (fromTimeOf p ts1 te1).1 = (fromTimeOf p ts2 te2).1
      ∧ (fromTimeOf p ts1 te1).2.1 = (fromTimeOf p ts2 te2).2.1 := by
  cases ts1 <;> cases te1 <;> cases ts2 <;> cases te2 <;>
    simp_all [fromTimeOf] <;> split_ifs <;> simp

lemma timeConds_nil_params (p : String) (ts te : Option Int)
    (h : (fromTimeOf p ts te).2.1 = []) : (fromTimeOf p ts te).2.2 = [] := by
  cases ts with
  | none => rfl
  | some s =>
      cases te with
      | none => rfl
      | some e =>
          simp only [fromTimeOf] at h ⊢
          split_ifs at h ⊢ <;> simp_all

lemma sum_countQ_filters (fs : List QFilter)
    (hf : ∀ f ∈ fs, countQ f.column = 0 ∧ countQ f.op = 0) :
    (((fs.map filterFrag).map Prod.fst).map countQ).sum
      = (((fs.map filterFrag).map Prod.snd).map List.length).sum := by
  induction fs with
  | nil => rfl
  | cons f fs ih =>
      simp only [List.map_cons, List.sum_cons]
      rw [countQ_filterFrag f (hf f (by simp)).1 (hf f (by simp)).2,
        ih (fun x hx => hf x (by simp [hx]))]

/-- C2.  For every `QueryIntent` whose column names, operator names, table
names and aggregation name contain no `?` themselves (true of everything
`identify_query_intent` produces): (1) the number of `?` bind placeholders
in the synthesized SQL equals `len(params)`; (2) the SQL text is a
function of the intent's shape alone — replacing every filter value and
both time-window endpoints by any other values leaves the SQL text
unchanged, so filter and time-range values reach the query only through
the bind parameters, never the SQL text. -/
theorem build_sql_query_bind_arity :
    (∀ intent : QueryIntent,
      (∀ f ∈ intent.filters, countQ f.column = 0 ∧ countQ f.op = 0) →
      (∀ t ∈ intent.tables, countQ t = 0) →
      (∀ a, intent.aggregation = some a → countQ a = 0) →
      countQ (build_sql_query intent).1 = (build_sql_query intent).2.length)
    ∧ (∀ i1 i2 : QueryIntent,
      i1.tables = i2.tables →
      i1.aggregation = i2.aggregation →
      i1.limit = i2.limit →
      i1.filters.map QFilter.shape = i2.filters.map QFilter.shape →
      (i1.timeStart.isSome && i1.timeEnd.isSome)
        = (i2.timeStart.isSome && i2.timeEnd.isSome) →
      (build_sql_query i1).1 = (build_sql_query i2).1) := by
  constructor
  · intro intent hf ht ha
    have hp : countQ (intent.tables.headD "SIGNALITEM") = 0 := by
      cases htb : intent.tables with
      | nil => decide
      | cons t ts =>
          have := (ht t (by simp [htb])).symm
          simpa [htb] using (ht t (by simp [htb]))
    have horder : countQ (orderClauseOf intent.aggregation
        (intent.tables.headD "SIGNALITEM")) = 0 := by
      cases intent.aggregation with
      | some a => rfl
      | none =>
          simp only [orderClauseOf]
          split_ifs <;> decide
    simp only [build_sql_query]
    rw [countQ_append, countQ_append, countQ_append, countQ_append,
      countQ_selectClause _ _ ha, countQ_fromClause _ _ _ hp, horder, countQ_limitClause]
    by_cases hw : ((intent.filters.map filterFrag).map Prod.fst ++
        (fromTimeOf (intent.tables.headD "SIGNALITEM")
          intent.timeStart intent.timeEnd).2.1).isEmpty
    · rw [if_pos hw]
      rw [List.isEmpty_iff, List.append_eq_nil] at hw
      obtain ⟨hw1, hw2⟩ := hw
      have hfil : intent.filters = [] :=
        List.map_eq_nil_iff.mp (List.map_eq_nil_iff.mp hw1)
      rw [hfil, timeConds_nil_params _ _ _ hw2]
      rfl
    · rw [if_neg hw, countQ_append, countQ_joinAnd]
      have hwq : countQ " WHERE " = 0 := by decide
      rw [hwq, List.map_append, List.sum_append,
        sum_countQ_filters intent.filters hf, countQ_timeConds]
      rw [List.length_append, List.length_flatten, List.map_map]
      simp [Function.comp]
  · intro i1 i2 htab hagg hlim hfil htime
    have hp : i1.tables.headD "SIGNALITEM" = i2.tables.headD "SIGNALITEM" := by rw [htab]
    have hft := fromTimeOf_shape (i2.tables.headD "SIGNALITEM")
      i1.timeStart i1.timeEnd i2.timeStart i2.timeEnd htime
    have hfr := filters_fst_of_shape i1.filters i2.filters hfil
    simp only [build_sql_query]
    rw [hagg, hlim, hp, hfr, hft.1, hft.2]

/-- Witness for C2: the intent of "history of online channels above 3.5
last week" has a status filter, a numeric filter and a time window; the
built SQL has exactly as many `?` as parameters, and changing the bound
values (but not the shape) leaves the SQL text unchanged. -/
theorem build_sql_query_bind_arity_witness :
    countQ (build_sql_query (identify_query_intent ⟨14400930, 15⟩
        "history of online channels above 3.5 last week")).1
      = (build_sql_query (identify_query_intent ⟨14400930, 15⟩
        "history of online channels above 3.5 last week")).2.length := by
  apply build_sql_query_bind_arity.1
  · decide
  · decide
  · intro a ha
    have h0 : (identify_query_intent ⟨14400930, 15⟩
        "history of online channels above 3.5 last week").aggregation = none := by decide
    rw [h0] at ha
    exact absurd ha (by simp)

/-! ## C5 / C6 — relative-time parsing -/

lemma ptLoop_skip (now : PyNow) (q : List Char)
    (pre rest : List (Regex × (PyNow → List String → Int × Int)))
    (h : ∀ p ∈ pre, reSearch p.1 q = none) :
    ptLoop now q (pre ++ rest) = ptLoop now q rest := by
  induction pre with
  | nil => rfl
  | cons p ps ih =>
      obtain ⟨r, build⟩ := p
      simp only [List.cons_append, ptLoop, h (r, build) (by simp)]
      exact ih fun x hx => h x (by simp [hx])

lemma ptLoop_none (now : PyNow) (q : List Char)
    (l : List (Regex × (PyNow → List String → Int × Int)))
    (h : ∀ p ∈ l, reSearch p.1 q = none) :
    ptLoop now q l = (String.mk q, none, none) := by
  have h2 := ptLoop_skip now q l [] h
  simpa using h2

/-- If the first `k` time patterns fail and the `k`-th matches, the loop
returns pattern `k`'s window and strips pattern `k`'s matches. -/
lemma ptLoop_nth (now : PyNow) (q : String) (k : Nat)
    (r : Regex) (build : PyNow → List String → Int × Int)
    (hpre : ∀ p ∈ oracleTimePatterns.take k, reSearch p.1 q.data = none)
    (hk : oracleTimePatterns.drop k = (r, build) :: oracleTimePatterns.drop (k + 1))
    (s e : Nat) (caps : List String)
    (hse : reSearch r q.data = some (s, e, caps)) :
    parse_time_expressions now q
      = (String.mk (stripChars (rmAll r q.data)),
         some (build now caps).1, some (build now caps).2) := by
  unfold parse_time_expressions
  rw [show oracleTimePatterns
      = oracleTimePatterns.take k ++ oracleTimePatterns.drop k from
      (List.take_append_drop k oracleTimePatterns).symm,
    ptLoop_skip now q.data _ _ hpre, hk]
  simp [ptLoop, hse]

/-- C5 counterexample.  At `now` = minute 930 of day 10000 (15:30), the
query "show me alerts from yesterday" yields start = 14399490 and end =
14400929; the start is yesterday **at 15:30**, not yesterday 00:00
(minute 9999·1440 = 14398560): it is not at a midnight, and the end even
falls on the current calendar day (day 10000), not the previous one. -/
theorem parse_time_yesterday_cex :
    (parse_time_expressions ⟨14400930, 15⟩ "show me alerts from yesterday").2.1
        = some 14399490
    ∧ (parse_time_expressions ⟨14400930, 15⟩ "show me alerts from yesterday").2.2
        = some 14400929
    ∧ (14399490 : Int) ≠ 9999 * 1440
    ∧ (14399490 : Int).emod 1440 ≠ 0
    ∧ (14400929 : Int).ediv 1440 = 10000 := by
  exact ⟨by decide, by decide, by decide, by decide, by decide⟩

/-- C5 (amended).  For every query in which none of the ten patterns
before `\byesterday\b` match and `yesterday` occurs as a word, the window
is start = now − 1 day (yesterday at *now's own time of day*) and end =
start + 23 h 59 min, and the matched word is stripped from the cleaned
query.  (The claim's "yesterday 00:00 … yesterday 23:59" does not hold:
see `parse_time_yesterday_cex`.) -/
theorem parse_time_yesterday_window (now : PyNow) (q : String)
    (hpre : ∀ p ∈ oracleTimePatterns.take 10, reSearch p.1 q.data = none)
    (hy : (reSearch yesterdayRe q.data).isSome) :
    parse_time_expressions now q
      = (String.mk (stripChars (rmAll yesterdayRe q.data)),
         some (now.minutes - minutesPerDay),
         some (now.minutes - minutesPerDay + (23 * 60 + 59))) := by
  obtain ⟨⟨s, e, caps⟩, hse⟩ := Option.isSome_iff_exists.mp hy
  exact ptLoop_nth now q 10 yesterdayRe _ hpre rfl s e caps hse

/-- Witness for C5's amended statement. -/
theorem parse_time_yesterday_window_witness :
    parse_time_expressions ⟨14400930, 15⟩ "show me alerts from yesterday"
      = ("show me alerts from", some (14400930 - 1440),
         some (14400930 - 1440 + (23 * 60 + 59))) := by
  rw [parse_time_yesterday_window ⟨14400930, 15⟩ "show me alerts from yesterday"
    (by decide) (by decide)]
  rfl

/-- C6.  The time patterns are tried in one fixed order and the first
match wins, so at most one time expression is recognized per query; each
fixed-span phrase produces its defined window (e.g. `last week` = exactly
7 days ending at call-time `now`, `last N days/hours` = N days/hours
ending now, `yesterday` = 23 h 59 min starting one day before now,
`today` = from now's midnight); the matched substring is removed (all its
occurrences are deleted and the result stripped); and when no pattern
matches the query comes back unchanged with `(None, None)`.  Each
conjunct below fixes one pattern, assumes the patterns before it fail,
and pins the exact result. -/
theorem parse_time_priority_and_spans :
    (∀ (now : PyNow) (q : String),
      (∀ p ∈ oracleTimePatterns, reSearch p.1 q.data = none) →
      parse_time_expressions now q = (q, none, none))
    ∧ (∀ (now : PyNow) (q : String), (reSearch lastWeekRe q.data).isSome →
      parse_time_expressions now q
        = (String.mk (stripChars (rmAll lastWeekRe q.data)),
           some (now.minutes - 7 * minutesPerDay), some now.minutes))
    ∧ (∀ (now : PyNow) (q : String),
      (∀ p ∈ oracleTimePatterns.take 1, reSearch p.1 q.data = none) →
      (reSearch pastWeekRe q.data).isSome →
      parse_time_expressions now q
        = (String.mk (stripChars (rmAll pastWeekRe q.data)),
           some (now.minutes - 7 * minutesPerDay), some now.minutes))
    ∧ (∀ (now : PyNow) (q : String),
      (∀ p ∈ oracleTimePatterns.take 2, reSearch p.1 q.data = none) →
      (reSearch thisWeekRe q.data).isSome →
      parse_time_expressions now q
        = (String.mk (stripChars (rmAll thisWeekRe q.data)),
           some (now.minutes - now.weekday * minutesPerDay), some now.minutes))
    ∧ (∀ (now : PyNow) (q : String),
      (∀ p ∈ oracleTimePatterns.take 3, reSearch p.1 q.data = none) →
      (reSearch lastMonthRe q.data).isSome →
      parse_time_expressions now q
        = (String.mk (stripChars (rmAll lastMonthRe q.data)),
           some (now.minutes - 30 * minutesPerDay), some now.minutes))
    ∧ (∀ (now : PyNow) (q : String),
      (∀ p ∈ oracleTimePatterns.take 4, reSearch p.1 q.data = none) →
      (reSearch pastMonthRe q.data).isSome →
      parse_time_expressions now q
        = (String.mk (stripChars (rmAll pastMonthRe q.data)),
           some (now.minutes - 30 * minutesPerDay), some now.minutes))
    ∧ (∀ (now : PyNow) (q : String),
      (∀ p ∈ oracleTimePatterns.take 5, reSearch p.1 q.data = none) →
      (reSearch thisMonthRe q.data).isSome →
      parse_time_expressions now q
        = (String.mk (stripChars (rmAll thisMonthRe q.data)),
           some now.monthStart, some now.minutes))
    ∧ (∀ (now : PyNow) (q : String) (s e : Nat) (caps : List String),
      (∀ p ∈ oracleTimePatterns.take 6, reSearch p.1 q.data = none) →
      reSearch lastNDaysRe q.data = some (s, e, caps) →
      parse_time_expressions now q
        = (String.mk (stripChars (rmAll lastNDaysRe q.data)),
           some (now.minutes - capNum caps * minutesPerDay), some now.minutes))
    ∧ (∀ (now : PyNow) (q : String) (s e : Nat) (caps : List String),
      (∀ p ∈ oracleTimePatterns.take 7, reSearch p.1 q.data = none) →
      reSearch pastNDaysRe q.data = some (s, e, caps) →
      parse_time_expressions now q
        = (String.mk (stripChars (rmAll pastNDaysRe q.data)),
           some (now.minutes - capNum caps * minutesPerDay), some now.minutes))
    ∧ (∀ (now : PyNow) (q : String) (s e : Nat) (caps : List String),
      (∀ p ∈ oracleTimePatterns.take 8, reSearch p.1 q.data = none) →
      reSearch lastNHoursRe q.data = some (s, e, caps) →
      parse_time_expressions now q
        = (String.mk (stripChars (rmAll lastNHoursRe q.data)),
           some (now.minutes - capNum caps * 60), some now.minutes))
    ∧ (∀ (now : PyNow) (q : String) (s e : Nat) (caps : List String),
      (∀ p ∈ oracleTimePatterns.take 9, reSearch p.1 q.data = none) →
      reSearch pastNHoursRe q.data = some (s, e, caps) →
      parse_time_expressions now q
        = (String.mk (stripChars (rmAll pastNHoursRe q.data)),
           some (now.minutes - capNum caps * 60), some now.minutes))
    ∧ (∀ (now : PyNow) (q : String),
      (∀ p ∈ oracleTimePatterns.take 10, reSearch p.1 q.data = none) →
      (reSearch yesterdayRe q.data).isSome →
      parse_time_expressions now q
        = (String.mk (stripChars (rmAll yesterdayRe q.data)),
           some (now.minutes - minutesPerDay),
           some (now.minutes - minutesPerDay + (23 * 60 + 59))))
    ∧ (∀ (now : PyNow) (q : String),
      (∀ p ∈ oracleTimePatterns.take 11, reSearch p.1 q.data = none) →
      (reSearch todayRe q.data).isSome →
      parse_time_expressions now q
        = (String.mk (stripChars (rmAll todayRe q.data)),
           some now.dayStart, some now.minutes))
    ∧ (∀ (now : PyNow) (q : String),
      (∀ p ∈ oracleTimePatterns.take 12, reSearch p.1 q.data = none) →
      (reSearch lastHourRe q.data).isSome →
      parse_time_expressions now q
        = (String.mk (stripChars (rmAll lastHourRe q.data)),
           some (now.minutes - 60), some now.minutes))
    ∧ (∀ (now : PyNow) (q : String),
      (∀ p ∈ oracleTimePatterns.take 13, reSearch p.1 q.data = none) →
      (reSearch pastHourRe q.data).isSome →
      parse_time_expressions now q
        = (String.mk (stripChars (rmAll pastHourRe q.data)),
           some (now.minutes - 60), some now.minutes))
    ∧ parse_time_expressions ⟨14400930, 15⟩ "show alerts last week and yesterday"
        = ("show alerts  and yesterday",
           some (14400930 - 7 * 1440), some 14400930) := by
  refine ⟨?_, ?_, ?_, ?_, ?_, ?_, ?_, ?_, ?_, ?_, ?_, ?_, ?_, ?_, ?_, ?_⟩
  · intro now q h
    unfold parse_time_expressions
    rw [ptLoop_none now q.data _ h]
  · intro now q hm
    obtain ⟨⟨s, e, caps⟩, hse⟩ := Option.isSome_iff_exists.mp hm
    exact ptLoop_nth now q 0 lastWeekRe _ (by simp) rfl s e caps hse
  · intro now q hpre hm
    obtain ⟨⟨s, e, caps⟩, hse⟩ := Option.isSome_iff_exists.mp hm
    exact ptLoop_nth now q 1 pastWeekRe _ hpre rfl s e caps hse
  · intro now q hpre hm
    obtain ⟨⟨s, e, caps⟩, hse⟩ := Option.isSome_iff_exists.mp hm
    exact ptLoop_nth now q 2 thisWeekRe _ hpre rfl s e caps hse
  · intro now q hpre hm
    obtain ⟨⟨s, e, caps⟩, hse⟩ := Option.isSome_iff_exists.mp hm
    exact ptLoop_nth now q 3 lastMonthRe _ hpre rfl s e caps hse
  · intro now q hpre hm
    obtain ⟨⟨s, e, caps⟩, hse⟩ := Option.isSome_iff_exists.mp hm
    exact ptLoop_nth now q 4 pastMonthRe _ hpre rfl s e caps hse
  · intro now q hpre hm
    obtain ⟨⟨s, e, caps⟩, hse⟩ := Option.isSome_iff_exists.mp hm
    exact ptLoop_nth now q 5 thisMonthRe _ hpre rfl s e caps hse
  · intro now q s e caps hpre hse
    exact ptLoop_nth now q 6 lastNDaysRe _ hpre rfl s e caps hse
  · intro now q s e caps hpre hse
    exact ptLoop_nth now q 7 pastNDaysRe _ hpre rfl s e caps hse
  · intro now q s e caps hpre hse
    exact ptLoop_nth now q 8 lastNHoursRe _ hpre rfl s e caps hse
  · intro now q s e caps hpre hse
    exact ptLoop_nth now q 9 pastNHoursRe _ hpre rfl s e caps hse
  · intro now q hpre hm
    obtain ⟨⟨s, e, caps⟩, hse⟩ := Option.isSome_iff_exists.mp hm
    exact ptLoop_nth now q 10 yesterdayRe _ hpre rfl s e caps hse
  · intro now q hpre hm
    obtain ⟨⟨s, e, caps⟩, hse⟩ := Option.isSome_iff_exists.mp hm
    exact ptLoop_nth now q 11 todayRe _ hpre rfl s e caps hse
  · intro now q hpre hm
    obtain ⟨⟨s, e, caps⟩, hse⟩ := Option.isSome_iff_exists.mp hm
    exact ptLoop_nth now q 12 lastHourRe _ hpre rfl s e caps hse
  · intro now q hpre hm
    obtain ⟨⟨s, e, caps⟩, hse⟩ := Option.isSome_iff_exists.mp hm
    exact ptLoop_nth now q 13 pastHourRe _ hpre rfl s e caps hse
  · decide

/-- Witness for C6: "data from past week" — pattern 1 fires (pattern 0
does not match), giving exactly 7 days ending at `now`, with the phrase
removed. -/
theorem parse_time_priority_and_spans_witness :
    parse_time_expressions ⟨100000, 3⟩ "data from past week"
      = ("data from", some ((100000 : Int) - 7 * minutesPerDay), some 100000) := by
  rw [parse_time_priority_and_spans.2.2.1 ⟨100000, 3⟩ "data from past week"
    (by decide) (by decide)]
  rfl

/-! ## C7 — `suggest_tables` scoring -/

/-- Score of table `t` in the scores dict (0 when absent). -/
def lookup0 : List (String × Nat) → String → Nat
  | [], _ => 0
  | (k, v) :: rest, t => if k = t then v else lookup0 rest t

/-- Modelled from the spec's scoring formula, for comparison against the
source's fold: Σ len(term) over domain terms that occur as substrings of
the lower-cased query and map to `t`, plus 10 per canonical regex pattern
of `t` that matches. -/
def scoreSpec (q t : String) : Nat :=
  ((table_mappings.filter
      (fun p => p.2 = t && subB p.1 (lowerStr q))).map (fun p => p.1.length)).sum
  + 10 * ((stPatterns.filter (fun tp => tp.1 = t)).map
      (fun tp => tp.2.countP (fun r => (reSearch r (lowerStr q).data).isSome))).sum

lemma lookup0_bump (l : List (String × Nat)) (k : String) (v : Nat) (t : String) :
    lookup0 (bump l k v) t = lookup0 l t + (if t = k then v else 0) := by
  induction l with
  | nil =>
      by_cases h : k = t <;> simp [bump, lookup0, h, eq_comm]
  | cons p rest ih =>
      obtain ⟨k', v'⟩ := p
      by_cases hk : k' = k
      · subst hk
        by_cases ht : k' = t
        · subst ht
          simp [bump, lookup0]
        · have ht2 : ¬t = k' := fun h => ht h.symm
          simp [bump, lookup0, ht, ht2]
      · by_cases ht : k' = t
        · subst ht
          have hk2 : ¬k' = k := hk
          simp [bump, lookup0, hk2]
        · simp [bump, hk, lookup0, ht, ih]

lemma keys_bump (l : List (String × Nat)) (k : String) (v : Nat) (t : String) :
    t ∈ (bump l k v).map Prod.fst ↔ t ∈ l.map Prod.fst ∨ t = k := by
  induction l with
  | nil => simp [bump, eq_comm]
  | cons p rest ih =>
      obtain ⟨k', v'⟩ := p
      by_cases hk : k' = k
      · subst hk
        simp [bump, List.mem_cons]
        tauto
      · simp only [bump, if_neg hk, List.map_cons, List.mem_cons, ih]
        tauto

lemma nodupKeys_bump (l : List (String × Nat)) (k : String) (v : Nat)
    (h : (l.map Prod.fst).Nodup) : ((bump l k v).map Prod.fst).Nodup := by
  induction l with
  | nil => simp [bump]
  | cons p rest ih =>
      obtain ⟨k', v'⟩ := p
      simp only [List.map_cons, List.nodup_cons] at h
      by_cases hk : k' = k
      · subst hk
        simpa [bump, List.nodup_cons] using h
      · simp only [bump, if_neg hk, List.map_cons, List.nodup_cons]
        refine ⟨?_, ih h.2⟩
        rw [keys_bump]
        rintro (hm | rfl)
        · exact h.1 hm
        · exact hk rfl

lemma mem_lookup0 (l : List (String × Nat)) (t : String) (n : Nat)
    (hnd : (l.map Prod.fst).Nodup) (hm : (t, n) ∈ l) : lookup0 l t = n := by
  induction l with
  | nil => simp at hm
  | cons p rest ih =>
      obtain ⟨k', v'⟩ := p
      simp only [List.map_cons, List.nodup_cons] at hnd
      rcases List.mem_cons.mp hm with heq | hm'
      · have h1 : k' = t := (congrArg Prod.fst heq.symm : _)
        have h2 : v' = n := (congrArg Prod.snd heq.symm : _)
        simp [lookup0, h1, h2]
      · have hne : k' ≠ t := by
          intro h
          subst h
          exact hnd.1 (by simpa using List.mem_map_of_mem Prod.fst hm')
        simp only [lookup0, if_neg hne]
        exact ih hnd.2 hm'

lemma lookup0_of_not_mem (l : List (String × Nat)) (t : String)
    (h : t ∉ l.map Prod.fst) : lookup0 l t = 0 := by
  induction l with
  | nil => rfl
  | cons p rest ih =>
      obtain ⟨k', v'⟩ := p
      simp only [List.map_cons, List.mem_cons, not_or] at h
      have hne : ¬k' = t := fun hh => h.1 hh.symm
      simp only [lookup0, if_neg hne]
      exact ih h.2

lemma lookup0_termFold (ql : String) (l : List (String × String))
    (acc : List (String × Nat)) (t : String) :
    lookup0 (l.foldl (fun acc p => if subB p.1 ql then bump acc p.2 p.1.length else acc) acc) t
      = lookup0 acc t
        + ((l.filter (fun p => p.2 = t && subB p.1 ql)).map (fun p => p.1.length)).sum := by
  induction l generalizing acc with
  | nil => simp
  | cons p rest ih =>
      simp only [List.foldl_cons, List.filter_cons]
      by_cases hs : subB p.1 ql
      · rw [if_pos hs, ih, lookup0_bump]
        by_cases ht : p.2 = t
        · have hc : (decide (p.2 = t) && subB p.1 ql) = true := by simp [ht, hs]
          simp only [hc, eq_self_iff_true, if_true, List.map_cons, List.sum_cons,
            if_pos ht.symm]
          omega
        · have hc : (decide (p.2 = t) && subB p.1 ql) = false := by simp [ht]
          have ht2 : ¬t = p.2 := fun h => ht h.symm
          simp only [hc, Bool.false_eq_true, if_false, if_neg ht2]
          omega
      · rw [if_neg hs, ih]
        have hc : (decide (p.2 = t) && subB p.1 ql) = false := by simp [hs]
        simp only [hc, Bool.false_eq_true, if_false]

lemma lookup0_patFoldInner (q : List Char) (tbl : String) (rs : List Regex)
    (acc : List (String × Nat)) (t : String) :
    lookup0 (rs.foldl (fun a r => if (reSearch r q).isSome then bump a tbl 10 else a) acc) t
      = lookup0 acc t
        + (if t = tbl then 10 * rs.countP (fun r => (reSearch r q).isSome) else 0) := by
  induction rs generalizing acc with
  | nil => simp
  | cons r rest ih =>
      simp only [List.foldl_cons, List.countP_cons]
      by_cases hs : (reSearch r q).isSome
      · rw [if_pos hs, ih, lookup0_bump]
        by_cases ht : t = tbl <;> simp [ht, hs] <;> omega
      · rw [if_neg hs, ih]
        have : (reSearch r q).isSome = false := by simpa using hs
        simp [this]

lemma lookup0_patFold (q : List Char) (l : List (String × List Regex))
    (acc : List (String × Nat)) (t : String) :
    lookup0 (l.foldl (fun acc tp => tp.2.foldl
        (fun a r => if (reSearch r q).isSome then bump a tp.1 10 else a) acc) acc) t
      = lookup0 acc t
        + 10 * ((l.filter (fun tp => tp.1 = t)).map
            (fun tp => tp.2.countP (fun r => (reSearch r q).isSome))).sum := by
  induction l generalizing acc with
  | nil => simp
  | cons tp rest ih =>
      simp only [List.foldl_cons, List.filter_cons]
      rw [ih, lookup0_patFoldInner]
      by_cases ht : tp.1 = t
      · have ht2 : t = tp.1 := ht.symm
        have hc : (decide (tp.1 = t)) = true := by simp [ht]
        simp only [hc, eq_self_iff_true, if_true, List.map_cons, List.sum_cons, if_pos ht2]
        ring
      · have ht2 : ¬t = tp.1 := fun h => ht h.symm
        have hc : (decide (tp.1 = t)) = false := by simp [ht]
        simp only [hc, Bool.false_eq_true, if_false, if_neg ht2]
        omega

/-- The source's insertion-ordered score dict computes exactly the spec's
scoring formula. -/
lemma lookup0_stScores (q t : String) :
    lookup0 (stScores (lowerStr q)) t = scoreSpec q t := by
  unfold stScores scoreSpec
  rw [lookup0_patFold, lookup0_termFold]
  simp [lookup0]

lemma nodupKeys_termFold (ql : String) (l : List (String × String))
    (acc : List (String × Nat)) (h : (acc.map Prod.fst).Nodup) :
    ((l.foldl (fun acc p => if subB p.1 ql then bump acc p.2 p.1.length else acc) acc).map
      Prod.fst).Nodup := by
  induction l generalizing acc with
  | nil => exact h
  | cons p rest ih =>
      simp only [List.foldl_cons]
      by_cases hs : subB p.1 ql
      · rw [if_pos hs]
        exact ih _ (nodupKeys_bump _ _ _ h)
      · rw [if_neg hs]
        exact ih _ h

lemma nodupKeys_patFoldInner (q : List Char) (tbl : String) (rs : List Regex)
    (acc : List (String × Nat)) (h : (acc.map Prod.fst).Nodup) :
    ((rs.foldl (fun a r => if (reSearch r q).isSome then bump a tbl 10 else a) acc).map
      Prod.fst).Nodup := by
  induction rs generalizing acc with
  | nil => exact h
  | cons r rest ih =>
      simp only [List.foldl_cons]
      by_cases hs : (reSearch r q).isSome
      · rw [if_pos hs]
        exact ih _ (nodupKeys_bump _ _ _ h)
      · rw [if_neg hs]
        exact ih _ h

lemma nodupKeys_patFold (q : List Char) (l : List (String × List Regex))
    (acc : List (String × Nat)) (h : (acc.map Prod.fst).Nodup) :
    ((l.foldl (fun acc tp => tp.2.foldl
        (fun a r => if (reSearch r q).isSome then bump a tp.1 10 else a) acc) acc).map
      Prod.fst).Nodup := by
  induction l generalizing acc with
  | nil => exact h
  | cons tp rest ih =>
      simp only [List.foldl_cons]
      exact ih _ (nodupKeys_patFoldInner q tp.1 tp.2 acc h)

lemma nodupKeys_stScores (ql : String) : ((stScores ql).map Prod.fst).Nodup := by
  unfold stScores
  exact nodupKeys_patFold ql.data stPatterns _
    (nodupKeys_termFold ql table_mappings [] (by simp))

/-- Rows of the sorted score list carry their table's spec score, and are
in weakly descending score order. -/
lemma sorted_scores_facts (q : String) :
    (∀ x ∈ sortDesc (fun a b => a.2 > b.2) (stScores (lowerStr q)),
      x.2 = scoreSpec q x.1)
    ∧ (sortDesc (fun a b => a.2 > b.2) (stScores (lowerStr q))).Pairwise
        (fun a b => scoreSpec q b.1 ≤ scoreSpec q a.1) := by
  have hmem : ∀ x ∈ sortDesc (fun a b : String × Nat => a.2 > b.2) (stScores (lowerStr q)),
      x.2 = scoreSpec q x.1 := by
    intro x hx
    have hx' := (mem_sortDesc _ _ x).mp hx
    have h1 := mem_lookup0 (stScores (lowerStr q)) x.1 x.2 (nodupKeys_stScores _) hx'
    rw [← lookup0_stScores q x.1, h1]
  refine ⟨hmem, ?_⟩
  have hpw := pairwise_sortDesc (fun a b : String × Nat => a.2 > b.2)
    (fun a b c h1 h2 => by simp only [decide_eq_true_eq] at *; omega)
    (fun a b h => by simp only [decide_eq_true_eq, decide_eq_false_iff_not, not_lt] at *; omega)
    (stScores (lowerStr q))
  refine hpw.imp_of_mem ?_
  intro a b ha hb hab
  simp only [decide_eq_false_iff_not, not_lt] at hab
  rw [← hmem a ha, ← hmem b hb]
  exact hab

/-- C7.  `suggest_tables` scores each table as Σ len(term) over matching
domain-term substrings plus 10 per matching canonical pattern
(`lookup0_stScores`), returns at most the top 2 tables by descending
score (any positively-scored table left out scores no more than every
returned one), and on "show me current signal values" ranks SIGNALVALUE
(pattern score 20) above SIGNALITEM (substring score 6). -/
theorem suggest_tables_scoring :
    (∀ q t : String, lookup0 (stScores (lowerStr q)) t = scoreSpec q t)
    ∧ (∀ q : String, (suggest_tables q).length ≤ 2)
    ∧ (∀ q : String, (suggest_tables q).Pairwise
        (fun a b => scoreSpec q b ≤ scoreSpec q a))
    ∧ (∀ q t : String, 0 < scoreSpec q t → t ∉ suggest_tables q →
        ∀ u ∈ suggest_tables q, scoreSpec q t ≤ scoreSpec q u)
    ∧ suggest_tables "show me current signal values" = ["SIGNALVALUE", "SIGNALITEM"]
    ∧ scoreSpec "show me current signal values" "SIGNALVALUE" = 20
    ∧ scoreSpec "show me current signal values" "SIGNALITEM" = 6 := by
  refine ⟨lookup0_stScores, ?_, ?_, ?_, by decide, by decide, by decide⟩
  · intro q
    simp only [suggest_tables]
    exact (List.length_take_le 2 _).trans (le_refl 2)
  · intro q
    obtain ⟨hmem, hpw⟩ := sorted_scores_facts q
    have h1 : ((sortDesc (fun a b : String × Nat => a.2 > b.2)
        (stScores (lowerStr q))).map Prod.fst).Pairwise
        (fun a b => scoreSpec q b ≤ scoreSpec q a) :=
      List.pairwise_map.mpr hpw
    simp only [suggest_tables]
    exact h1.sublist (List.take_sublist 2 _)
  · intro q t hpos hnot u hu
    obtain ⟨hmem, hpw⟩ := sorted_scores_facts q
    set rows := sortDesc (fun a b : String × Nat => a.2 > b.2) (stScores (lowerStr q))
      with hrows
    -- t has a row: otherwise its score would be 0
    have hkey : t ∈ (stScores (lowerStr q)).map Prod.fst := by
      by_contra hk
      have h0 : lookup0 (stScores (lowerStr q)) t = 0 := lookup0_of_not_mem _ _ hk
      rw [lookup0_stScores] at h0
      omega
    obtain ⟨p, hp, hpt⟩ := List.mem_map.mp hkey
    have hprow : p ∈ rows := (mem_sortDesc _ _ p).mpr hp
    -- split rows into the taken prefix and the dropped suffix
    have hsplit : rows = rows.take 2 ++ rows.drop 2 := (List.take_append_drop 2 rows).symm
    have hsugg : suggest_tables q = (rows.take 2).map Prod.fst := by
      simp only [suggest_tables, hrows, List.map_take]
    have hpdrop : p ∈ rows.drop 2 := by
      rcases List.mem_append.mp (hsplit ▸ hprow) with h | h
      · exact absurd (hsugg ▸ (hpt ▸ List.mem_map_of_mem Prod.fst h)) hnot
      · exact h
    obtain ⟨pu, hpu, hput⟩ := List.mem_map.mp (hsugg ▸ hu)
    have hcross := (List.pairwise_append.mp (hsplit ▸ hpw)).2.2 pu hpu p hpdrop
    have hpmem : p ∈ rows := hprow
    have hpumem : pu ∈ rows := (hsplit ▸ List.mem_append.mpr (Or.inl hpu) : _)
    rw [← hpt, ← hput]
    exact hcross

/-- Witness for C7: on "history of channels and groups" the table
CHANNELGROUP (score 16) is squeezed out by SIGNALCHANNEL (18) and
REPDATA (17); the theorem's top-2 property instantiates to 16 ≤ 17. -/
theorem suggest_tables_scoring_witness :
    scoreSpec "history of channels and groups" "CHANNELGROUP"
      ≤ scoreSpec "history of channels and groups" "REPDATA" :=
  suggest_tables_scoring.2.2.2.1 "history of channels and groups" "CHANNELGROUP"
    (by decide) (by decide) "REPDATA" (by decide)

/-! ## C1 — `execute_natural_language_query` never lets an exception
escape -/

/-- C1.  Intent identification and SQL construction are total, so for
*every* database behaviour and every input string the method returns a
structured result: either `success=true` with no error, or
`success=false` with a populated error message and the attempted SQL and
parameters.  In particular, the nonsense query "xyzabc123nonsense" never
raises: on an empty store it returns `success=true, count=0`; against a
failing database it returns `success=false` with the error text and the
attempted SQL. -/
theorem execute_nl_query_no_escape :
    (∀ (ρ : Type) (execQ : String → List SqlVal → Except String (List ρ))
       (now : PyNow) (q : String),
      ((execute_natural_language_query execQ now q).success = true
        ∧ (execute_natural_language_query execQ now q).error = none)
      ∨ ((execute_natural_language_query execQ now q).success = false
        ∧ (∃ e, (execute_natural_language_query execQ now q).error = some e)
        ∧ (execute_natural_language_query execQ now q).sql
            = some (build_sql_query (identify_query_intent now q)).1
        ∧ (execute_natural_language_query execQ now q).params
            = some (build_sql_query (identify_query_intent now q)).2))
    ∧ (execute_natural_language_query (fun _ _ => Except.ok ([] : List Unit))
        ⟨0, 1⟩ "xyzabc123nonsense").success = true
    ∧ (execute_natural_language_query (fun _ _ => Except.ok ([] : List Unit))
        ⟨0, 1⟩ "xyzabc123nonsense").count = 0
    ∧ (execute_natural_language_query
        (fun _ _ => Except.error "no such table: SIGNALITEM")
        ⟨0, 1⟩ "xyzabc123nonsense")
      = { success := false, query := "xyzabc123nonsense",
          sql := some ("SELECT SIGID, SIGNAME, SIGTYPE, OBJDESCR, OBJUNIT, CHANNR"
            ++ " FROM SIGNALITEM ORDER BY SIGNAME LIMIT 100"),
          params := some [], results := ([] : List Unit), count := 0,
          timeStart := none, timeEnd := none,
          error := some "no such table: SIGNALITEM" } := by
  refine ⟨?_, rfl, rfl, ?_⟩
  · intro ρ execQ now q
    simp only [execute_natural_language_query]
    cases hx : execQ (build_sql_query (identify_query_intent now q)).1
        (build_sql_query (identify_query_intent now q)).2 with
    | ok rows => exact Or.inl ⟨rfl, rfl⟩
    | error e => exact Or.inr ⟨rfl, ⟨e, rfl⟩, rfl, rfl⟩
  · rfl

/-! ## C4 — aggregation keywords, the SELECT clause, and ORDER BY -/

/-- Modelled from the spec's words: the fixed-precedence aggregation
keyword groups (after the SELECT-verb group), first matching group wins. -/
def aggGroups : List (String × List String) :=
  [ ("COUNT", ["count", "how many"]),
    ("AVG", ["average", "avg", "mean"]),
    ("MAX", ["maximum", "max", "highest"]),
    ("MIN", ["minimum", "min", "lowest"]),
    ("SUM", ["sum", "total"]) ]

def firstAggGroup (ql : String) : Option String :=
  (aggGroups.find? (fun g => anySubB g.2 ql)).map Prod.fst

/-- All aggregation keywords of the source's `if/elif` chain. -/
def aggKeywords : List String :=
  ["count", "how many", "average", "avg", "mean", "maximum", "max", "highest",
   "minimum", "min", "lowest", "sum", "total"]

/-- Without a SELECT verb, the chain's aggregation equals the first
matching keyword group. -/
lemma actionAggOf_eq_first (ql : String) (hsel : anySubB selectVerbs ql = false) :
    (actionAggOf ql).2 = firstAggGroup ql := by
  simp only [actionAggOf, firstAggGroup, aggGroups, hsel, Bool.false_eq_true, if_false]
  by_cases h1 : anySubB ["count", "how many"] ql <;>
    by_cases h2 : anySubB ["average", "avg", "mean"] ql <;>
    by_cases h3 : anySubB ["maximum", "max", "highest"] ql <;>
    by_cases h4 : anySubB ["minimum", "min", "lowest"] ql <;>
    by_cases h5 : anySubB ["sum", "total"] ql <;>
    simp [h1, h2, h3, h4, h5]

/-- An aggregation keyword in the query means some group fires. -/
lemma firstAggGroup_isSome (ql : String) (hagg : anySubB aggKeywords ql = true) :
    ∃ g, firstAggGroup ql = some g ∧ g ∈ ["COUNT", "AVG", "MAX", "MIN", "SUM"] := by
  simp only [anySubB, aggKeywords, List.any_eq_true] at hagg
  obtain ⟨w, hw, hsub⟩ := hagg
  have hfind : (aggGroups.find? (fun g => anySubB g.2 ql)).isSome := by
    rw [List.find?_isSome]
    fin_cases hw <;>
      [exact ⟨("COUNT", ["count", "how many"]), by simp [aggGroups], by simp [anySubB, hsub]⟩;
       exact ⟨("COUNT", ["count", "how many"]), by simp [aggGroups], by simp [anySubB, hsub]⟩;
       exact ⟨("AVG", ["average", "avg", "mean"]), by simp [aggGroups], by simp [anySubB, hsub]⟩;
       exact ⟨("AVG", ["average", "avg", "mean"]), by simp [aggGroups], by simp [anySubB, hsub]⟩;
       exact ⟨("AVG", ["average", "avg", "mean"]), by simp [aggGroups], by simp [anySubB, hsub]⟩;
       exact ⟨("MAX", ["maximum", "max", "highest"]), by simp [aggGroups], by simp [anySubB, hsub]⟩;
       exact ⟨("MAX", ["maximum", "max", "highest"]), by simp [aggGroups], by simp [anySubB, hsub]⟩;
       exact ⟨("MAX", ["maximum", "max", "highest"]), by simp [aggGroups], by simp [anySubB, hsub]⟩;
       exact ⟨("MIN", ["minimum", "min", "lowest"]), by simp [aggGroups], by simp [anySubB, hsub]⟩;
       exact ⟨("MIN", ["minimum", "min", "lowest"]), by simp [aggGroups], by simp [anySubB, hsub]⟩;
       exact ⟨("MIN", ["minimum", "min", "lowest"]), by simp [aggGroups], by simp [anySubB, hsub]⟩;
       exact ⟨("SUM", ["sum", "total"]), by simp [aggGroups], by simp [anySubB, hsub]⟩;
       exact ⟨("SUM", ["sum", "total"]), by simp [aggGroups], by simp [anySubB, hsub]⟩]
  obtain ⟨p, hp⟩ := Option.isSome_iff_exists.mp hfind
  refine ⟨p.1, by simp [firstAggGroup, hp], ?_⟩
  have hpm := List.mem_of_find?_eq_some hp
  fin_cases hpm <;> simp

/-- The eight CIMS tables every code path can name. -/
def allTables : List String :=
  ["SIGNALITEM", "SIGNALVALUE", "REPDATA", "REPITEM", "SIGNALCHANNEL",
   "CHANNELGROUP", "PROCINSTANCE", "ADDRESS"]

lemma keys_termFold_subset (ql : String) (l : List (String × String))
    (acc : List (String × Nat)) (t : String)
    (h : t ∈ ((l.foldl (fun acc p =>
        if subB p.1 ql then bump acc p.2 p.1.length else acc) acc).map Prod.fst)) :
    t ∈ acc.map Prod.fst ∨ t ∈ l.map Prod.snd := by
  induction l generalizing acc with
  | nil => exact Or.inl h
  | cons p rest ih =>
      simp only [List.foldl_cons] at h
      by_cases hs : subB p.1 ql
      · rw [if_pos hs] at h
        rcases ih _ h with hacc | hrest
        · rcases (keys_bump _ _ _ _).mp hacc with hacc' | rfl
          · exact Or.inl hacc'
          · exact Or.inr (by simp)
        · exact Or.inr (by simp [hrest])
      · rw [if_neg hs] at h
        rcases ih _ h with hacc | hrest
        · exact Or.inl hacc
        · exact Or.inr (by simp [hrest])

lemma keys_patFoldInner_subset (q : List Char) (tbl : String) (rs : List Regex)
    (acc : List (String × Nat)) (t : String)
    (h : t ∈ ((rs.foldl (fun a r =>
        if (reSearch r q).isSome then bump a tbl 10 else a) acc).map Prod.fst)) :
    t ∈ acc.map Prod.fst ∨ t = tbl := by
  induction rs generalizing acc with
  | nil => exact Or.inl h
  | cons r rest ih =>
      simp only [List.foldl_cons] at h
      by_cases hs : (reSearch r q).isSome
      · rw [if_pos hs] at h
        rcases ih _ h with hacc | rfl
        · exact (keys_bump _ _ _ _).mp hacc
        · exact Or.inr rfl
      · rw [if_neg hs] at h
        exact ih _ h

lemma keys_patFold_subset (q : List Char) (l : List (String × List Regex))
    (acc : List (String × Nat)) (t : String)
    (h : t ∈ ((l.foldl (fun acc tp => tp.2.foldl
        (fun a r => if (reSearch r q).isSome then bump a tp.1 10 else a) acc) acc).map
      Prod.fst)) :
    t ∈ acc.map Prod.fst ∨ t ∈ l.map Prod.fst := by
  induction l generalizing acc with
  | nil => exact Or.inl h
  | cons tp rest ih =>
      simp only [List.foldl_cons] at h
      rcases ih _ h with hacc | hrest
      · rcases keys_patFoldInner_subset q tp.1 tp.2 acc t hacc with h' | rfl
        · exact Or.inl h'
        · exact Or.inr (by simp)
      · exact Or.inr (by simp [hrest])

lemma stScores_keys_allTables (ql t : String)
    (h : t ∈ (stScores ql).map Prod.fst) : t ∈ allTables := by
  unfold stScores at h
  have hm : ∀ x ∈ table_mappings.map Prod.snd, x ∈ allTables := by decide
  have hp : ∀ x ∈ stPatterns.map Prod.fst, x ∈ allTables := by decide
  rcases keys_patFold_subset ql.data stPatterns _ t h with h1 | h2
  · rcases keys_termFold_subset ql table_mappings [] t h1 with h3 | h4
    · simp at h3
    · exact hm t h4
  · exact hp t h2

lemma suggest_tables_allTables (q t : String) (h : t ∈ suggest_tables q) :
    t ∈ allTables := by
  simp only [suggest_tables] at h
  have h1 := List.mem_of_mem_take h
  obtain ⟨p, hp, rfl⟩ := List.mem_map.mp h1
  exact stScores_keys_allTables _ _
    (List.mem_map_of_mem Prod.fst ((mem_sortDesc _ _ p).mp hp))

set_option maxHeartbeats 2000000 in
lemma tableLadder_allTables (qcl t : String) (h : t ∈ tableLadder qcl) :
    t ∈ allTables := by
  unfold tableLadder at h
  split_ifs at h <;> simp only [List.mem_singleton] at h <;> subst h <;> decide

lemma intent_tables_allTables (now : PyNow) (q t : String)
    (h : t ∈ (identify_query_intent now q).tables) : t ∈ allTables := by
  simp only [identify_query_intent] at h
  by_cases he : (suggest_tables (parse_time_expressions now q).1).isEmpty
  · rw [if_pos he] at h
    exact tableLadder_allTables _ _ h
  · rw [if_neg he] at h
    exact suggest_tables_allTables _ _ h

/-- No character of `s` is `'Y'` (the letter that distinguishes
`ORDER BY`, which no aggregated clause ever emits). -/
abbrev noY (s : String) : Prop := ∀ c ∈ s.data, c ≠ 'Y'

lemma noY_append (a b : String) (ha : noY a) (hb : noY b) : noY (a ++ b) := by
  intro c hc
  rw [String.data_append] at hc
  rcases List.mem_append.mp hc with h | h
  · exact ha c h
  · exact hb c h

lemma noY_joinAnd (l : List String) (h : ∀ x ∈ l, noY x) :
    noY (joinSep " AND " l) := by
  match l with
  | [] => intro c hc; simp [joinSep] at hc
  | [x] => exact h x (by simp)
  | x :: y :: xs =>
      have ih := noY_joinAnd (y :: xs) (fun z hz => h z (by simp [List.mem_cons] at hz ⊢; tauto))
      exact noY_append _ _ (noY_append _ _ (h x (by simp)) (by decide)) ih

lemma valueFilterStep_mem (ql : List Char) (acc : List QFilter)
    (vp : Regex × String × Nat) (f : QFilter) (hf : f ∈ valueFilterStep ql acc vp) :
    f ∈ acc ∨ (f.column = "SIGNUMVALUE" ∧ f.op = vp.2.1) := by
  unfold valueFilterStep at hf
  cases hre : reSearch vp.1 ql with
  | none => rw [hre] at hf; exact Or.inl hf
  | some r =>
      obtain ⟨s', e', caps⟩ := r
      rw [hre] at hf
      dsimp only at hf
      by_cases h2 : vp.2.2 = 2
      · rw [if_pos h2] at hf
        rcases List.mem_append.mp hf with h | h
        · exact Or.inl h
        · simp only [List.mem_singleton] at h
          subst h
          exact Or.inr ⟨rfl, rfl⟩
      · rw [if_neg h2] at hf
        rcases List.mem_append.mp hf with h | h
        · exact Or.inl h
        · simp only [List.mem_singleton] at h
          subst h
          exact Or.inr ⟨rfl, rfl⟩

lemma valFold_mem (ql : List Char) (vps : List (Regex × String × Nat))
    (acc : List QFilter) (f : QFilter) (hf : f ∈ vps.foldl (valueFilterStep ql) acc) :
    f ∈ acc ∨ (f.column = "SIGNUMVALUE" ∧ ∃ vp ∈ vps, f.op = vp.2.1) := by
  induction vps generalizing acc with
  | nil => exact Or.inl hf
  | cons vp rest ih =>
      simp only [List.foldl_cons] at hf
      rcases ih _ hf with hacc | ⟨hc, vp', hvp', hop⟩
      · rcases valueFilterStep_mem ql acc vp f hacc with h | ⟨hc, hop⟩
        · exact Or.inl h
        · exact Or.inr ⟨hc, vp, by simp, hop⟩
      · exact Or.inr ⟨hc, vp', by simp [hvp'], hop⟩

lemma unitFilter_mem (ql : List Char) (ups : List (Regex × String)) (f : QFilter)
    (hf : f ∈ unitFilter ql ups) : f.column = "OBJUNIT" ∧ f.op = "LIKE" := by
  induction ups with
  | nil => simp [unitFilter] at hf
  | cons up rest ih =>
      unfold unitFilter at hf
      by_cases hs : (reSearch up.1 ql).isSome
      · rw [if_pos hs] at hf
        simp only [List.mem_singleton] at hf
        subst hf
        exact ⟨rfl, rfl⟩
      · rw [if_neg hs] at hf
        exact ih hf

lemma extract_filters_cols (q : String) :
    ∀ f ∈ extract_filters q,
      f.column ∈ ["status", "SIGSTATUS", "PCTQUAL", "SIGNUMVALUE", "OBJUNIT"]
      ∧ f.op ∈ ["=", "!=", ">", "<", "BETWEEN", "LIKE"] := by
  intro f hf
  unfold extract_filters at hf
  rcases List.mem_append.mp hf with hf1 | hunit
  rcases List.mem_append.mp hf1 with hf2 | hval
  rcases List.mem_append.mp hf2 with hstat | hqual
  · split_ifs at hstat <;>
      first
        | (simp only [List.mem_singleton] at hstat; subst hstat
           exact ⟨by decide, by decide⟩)
        | simp at hstat
  · split_ifs at hqual <;>
      first
        | (rcases List.mem_cons.mp hqual with h | h
           · subst h; exact ⟨by decide, by decide⟩
           · simp only [List.mem_singleton] at h; subst h; exact ⟨by decide, by decide⟩)
        | (simp only [List.mem_singleton] at hqual; subst hqual; exact ⟨by decide, by decide⟩)
        | simp at hqual
  · rcases valFold_mem _ _ _ _ hval with h | ⟨hc, vp, hvp, hop⟩
    · simp at h
    · refine ⟨by simp [hc], ?_⟩
      have : ∀ x ∈ valuePatterns, x.2.1 ∈ ["=", "!=", ">", "<", "BETWEEN", "LIKE"] := by decide
      rw [hop]
      exact this vp hvp
  · obtain ⟨hc, ho⟩ := unitFilter_mem _ _ _ hunit
    exact ⟨by simp [hc], by simp [ho]⟩

lemma isPrefixB_extend (n l m : List Char) (h : isPrefixB n l = true) :
    isPrefixB n (l ++ m) = true := by
  induction n generalizing l with
  | nil => rfl
  | cons a as ih =>
      cases l with
      | nil => simp [isPrefixB] at h
      | cons b bs =>
          simp only [List.cons_append, isPrefixB, Bool.and_eq_true] at h ⊢
          exact ⟨h.1, ih bs h.2⟩

lemma isSubList_extend (n l m : List Char) (h : isSubList n l = true) :
    isSubList n (l ++ m) = true := by
  induction l with
  | nil =>
      simp only [isSubList, List.isEmpty_iff] at h
      subst h
      cases m with
      | nil => rfl
      | cons c cs => simp [isSubList, isPrefixB]
  | cons c cs ih =>
      simp only [List.cons_append, isSubList, Bool.or_eq_true] at h ⊢
      rcases h with h | h
      · exact Or.inl (isPrefixB_extend n (c :: cs) m h)
      · exact Or.inr (ih h)

lemma isPrefixB_chars (n l : List Char) (h : isPrefixB n l = true) :
    ∀ c ∈ n, c ∈ l := by
  induction n generalizing l with
  | nil => simp
  | cons a as ih =>
      cases l with
      | nil => simp [isPrefixB] at h
      | cons b bs =>
          simp only [isPrefixB, Bool.and_eq_true, beq_iff_eq] at h
          intro c hc
          rcases List.mem_cons.mp hc with rfl | hc'
          · rw [h.1]; simp
          · exact List.mem_cons_of_mem _ (ih bs h.2 c hc')

lemma isSubList_chars (n l : List Char) (h : isSubList n l = true) :
    ∀ c ∈ n, c ∈ l := by
  induction l with
  | nil =>
      simp only [isSubList, List.isEmpty_iff] at h
      subst h
      simp
  | cons b bs ih =>
      simp only [isSubList, Bool.or_eq_true] at h
      rcases h with h | h
      · exact isPrefixB_chars n (b :: bs) h
      · intro c hc
        exact List.mem_cons_of_mem _ (ih h c hc)

lemma noY_not_orderby (s : String) (h : noY s) :
    isSubList "ORDER BY".data s.data = false := by
  by_contra hcon
  rw [Bool.not_eq_false] at hcon
  exact h 'Y' (isSubList_chars _ _ hcon 'Y' (by decide)) rfl

lemma isPrefixB_self_append (l m : List Char) : isPrefixB l (l ++ m) = true := by
  induction l with
  | nil => rfl
  | cons a as ih => simp [isPrefixB, ih]

lemma noY_table (t : String) (h : t ∈ allTables) : noY t := by
  simp only [allTables, List.mem_cons, List.not_mem_nil, or_false] at h
  rcases h with h | h | h | h | h | h | h | h <;> rw [h] <;> decide

lemma noY_primary_intent (now : PyNow) (q : String) :
    noY ((identify_query_intent now q).tables.headD "SIGNALITEM") := by
  cases h : (identify_query_intent now q).tables with
  | nil => decide
  | cons t ts =>
      have ht : t ∈ allTables :=
        intent_tables_allTables now q t (by rw [h]; exact List.mem_cons_self t ts)
      simpa using noY_table t ht

lemma noY_selectAgg (g primary : String) (hg : g ∈ ["COUNT", "AVG", "MAX", "MIN", "SUM"]) :
    noY (selectClauseOf (some g) primary) := by
  have hgY : noY g := by
    simp only [List.mem_cons, List.not_mem_nil, or_false] at hg
    rcases hg with h | h | h | h | h <;> rw [h] <;> decide
  simp only [selectClauseOf]
  split_ifs <;>
    first
      | decide
      | exact noY_append _ _ (noY_append _ _ (by decide) hgY) (by decide)

lemma noY_fromTime (primary : String) (ts te : Option Int) (hp : noY primary) :
    noY (fromTimeOf primary ts te).1 ∧ ∀ s ∈ (fromTimeOf primary ts te).2.1, noY s := by
  cases ts with
  | none => exact ⟨noY_append _ _ (by decide) hp, by simp [fromTimeOf]⟩
  | some s =>
      cases te with
      | none => exact ⟨noY_append _ _ (by decide) hp, by simp [fromTimeOf]⟩
      | some e =>
          simp only [fromTimeOf]
          split_ifs with h1 h2
          · refine ⟨noY_append _ _ (by decide) hp, ?_⟩
            intro x hx
            simp only [List.mem_singleton] at hx
            subst hx
            decide
          · refine ⟨noY_append _ _ (noY_append _ _ (by decide) hp) (by decide), ?_⟩
            intro x hx
            simp only [List.mem_singleton] at hx
            subst hx
            decide
          · exact ⟨noY_append _ _ (by decide) hp, by simp⟩

lemma noY_filterFrag (f : QFilter)
    (hc : f.column ∈ ["status", "SIGSTATUS", "PCTQUAL", "SIGNUMVALUE", "OBJUNIT"])
    (ho : f.op ∈ ["=", "!=", ">", "<", "BETWEEN", "LIKE"]) :
    noY (filterFrag f).1 := by
  have hcY : noY f.column := by
    simp only [List.mem_cons, List.not_mem_nil, or_false] at hc
    rcases hc with h | h | h | h | h <;> rw [h] <;> decide
  have hoY : noY f.op := by
    simp only [List.mem_cons, List.not_mem_nil, or_false] at ho
    rcases ho with h | h | h | h | h | h <;> rw [h] <;> decide
  simp only [filterFrag]
  split_ifs with h1 h2
  · cases f.value <;>
      first
        | exact noY_append _ _ hcY (by decide)
        | exact noY_append _ _ (noY_append _ _ (noY_append _ _ hcY (by decide)) hoY) (by decide)
  · exact noY_append _ _ hcY (by decide)
  · exact noY_append _ _ (noY_append _ _ (noY_append _ _ hcY (by decide)) hoY) (by decide)

lemma noY_limitClause (l : Option Nat) : noY (limitClauseOf l) := by
  match l with
  | none => intro c hc; simp [limitClauseOf] at hc
  | some n =>
      simp only [limitClauseOf]
      by_cases h : n = 0
      · rw [if_pos h]; intro c hc; simp at hc
      · rw [if_neg h]
        refine noY_append _ _ (by decide) ?_
        intro c hc hY
        subst hY
        exact absurd (repr_benign n 'Y' hc) (by decide)

/-- The `build_sql_query` output unfolded into its five concatenated
clauses (the `let`s of the source are plain bindings). -/
lemma build_sql_query_clauses (i : QueryIntent) :
    (build_sql_query i).1
      = selectClauseOf i.aggregation (i.tables.headD "SIGNALITEM")
        ++ (fromTimeOf (i.tables.headD "SIGNALITEM") i.timeStart i.timeEnd).1
        ++ (if ((i.filters.map filterFrag).map Prod.fst
              ++ (fromTimeOf (i.tables.headD "SIGNALITEM") i.timeStart i.timeEnd).2.1).isEmpty
            then ""
            else " WHERE " ++ joinSep " AND "
              ((i.filters.map filterFrag).map Prod.fst
                ++ (fromTimeOf (i.tables.headD "SIGNALITEM") i.timeStart i.timeEnd).2.1))
        ++ orderClauseOf i.aggregation (i.tables.headD "SIGNALITEM")
        ++ limitClauseOf i.limit := rfl

/-- When the intent aggregates, every clause of the synthesized SQL is
free of the letter `Y` — in particular no `ORDER BY` can occur. -/
lemma noY_sql_of_agg (now : PyNow) (q g : String)
    (hagg : (identify_query_intent now q).aggregation = some g)
    (hg5 : g ∈ ["COUNT", "AVG", "MAX", "MIN", "SUM"]) :
    noY (build_sql_query (identify_query_intent now q)).1 := by
  rw [build_sql_query_clauses, hagg]
  have hprim := noY_primary_intent now q
  have hfrom := noY_fromTime ((identify_query_intent now q).tables.headD "SIGNALITEM")
    (identify_query_intent now q).timeStart (identify_query_intent now q).timeEnd hprim
  refine noY_append _ _ (noY_append _ _ (noY_append _ _ (noY_append _ _ ?_ ?_) ?_) ?_) ?_
  · exact noY_selectAgg g _ hg5
  · exact hfrom.1
  · by_cases he : (((identify_query_intent now q).filters.map filterFrag).map Prod.fst
        ++ (fromTimeOf ((identify_query_intent now q).tables.headD "SIGNALITEM")
              (identify_query_intent now q).timeStart
              (identify_query_intent now q).timeEnd).2.1).isEmpty
    · rw [if_pos he]; intro c hc; simp at hc
    · rw [if_neg he]
      refine noY_append _ _ (by decide) (noY_joinAnd _ ?_)
      intro s hs
      rcases List.mem_append.mp hs with hsf | hst
      · obtain ⟨pr, hpr, rfl⟩ := List.mem_map.mp hsf
        obtain ⟨f, hf, rfl⟩ := List.mem_map.mp hpr
        have hfe : (identify_query_intent now q).filters
            = extract_filters (parse_time_expressions now q).1 := rfl
        rw [hfe] at hf
        have hfc := extract_filters_cols (parse_time_expressions now q).1 f hf
        exact noY_filterFrag f hfc.1 hfc.2
      · exact hfrom.2 s hst
  · intro c hc; simp [orderClauseOf] at hc
  · exact noY_limitClause _

/-- C4 (counterexample): the query `"show me the count of signals"`
contains the aggregation keyword `count`, yet because the SELECT verb
`show` is checked first in `identify_query_intent`, no aggregation is
recorded: the synthesized SQL has no `COUNT` in its SELECT clause and
does contain an `ORDER BY` clause, refuting the claim as stated. -/
theorem identify_agg_cex :
    subB "count" (stripS (lowerStr "show me the count of signals")) = true
    ∧ (identify_query_intent ⟨0, 1⟩ "show me the count of signals").aggregation = none
    ∧ (build_sql_query (identify_query_intent ⟨0, 1⟩ "show me the count of signals")).1
        = "SELECT SIGID, SIGNAME, SIGTYPE, OBJDESCR, OBJUNIT, CHANNR"
          ++ " FROM SIGNALITEM ORDER BY SIGNAME LIMIT 100"
    ∧ isSubList "COUNT".data
        (build_sql_query (identify_query_intent ⟨0, 1⟩ "show me the count of signals")).1.data
        = false
    ∧ isSubList "ORDER BY".data
        (build_sql_query (identify_query_intent ⟨0, 1⟩ "show me the count of signals")).1.data
        = true := by
  exact ⟨by decide, by decide, rfl, by decide, by decide⟩

/-- C4 (amended): for a query whose lowercased, stripped text contains an
aggregation keyword but NO SELECT verb (`show`/`list`/`display`/`get`/
`find`/`what` — these win the precedence chain and suppress aggregation),
`identify_query_intent` records the first matching aggregate group, the
SQL built by `build_sql_query` contains no `ORDER BY` clause, it contains
the matching aggregate function whenever the aggregate is `COUNT` or the
primary table is `SIGNALVALUE`/`REPDATA`, and in all remaining aggregate
cases the SELECT clause silently degrades to `SELECT COUNT(*)`. -/
theorem identify_agg_select_noorder (now : PyNow) (q : String)
    (hagg : anySubB aggKeywords (stripS (lowerStr q)) = true)
    (hsel : anySubB selectVerbs (stripS (lowerStr q)) = false) :
    ∃ g, (identify_query_intent now q).aggregation = some g
      ∧ firstAggGroup (stripS (lowerStr q)) = some g
      ∧ g ∈ ["COUNT", "AVG", "MAX", "MIN", "SUM"]
      ∧ isSubList "ORDER BY".data
          (build_sql_query (identify_query_intent now q)).1.data = false
      ∧ ((g = "COUNT"
            ∨ (identify_query_intent now q).tables.headD "SIGNALITEM" = "SIGNALVALUE"
            ∨ (identify_query_intent now q).tables.headD "SIGNALITEM" = "REPDATA") →
          subB g (build_sql_query (identify_query_intent now q)).1 = true)
      ∧ ((g ≠ "COUNT"
            ∧ (identify_query_intent now q).tables.headD "SIGNALITEM" ≠ "SIGNALVALUE"
            ∧ (identify_query_intent now q).tables.headD "SIGNALITEM" ≠ "REPDATA") →
          isPrefixB "SELECT COUNT(*)".data
            (build_sql_query (identify_query_intent now q)).1.data = true) := by
  obtain ⟨g, hfg, hg5⟩ := firstAggGroup_isSome _ hagg
  have haa : (actionAggOf (stripS (lowerStr q))).2 = some g := by
    rw [actionAggOf_eq_first _ hsel, hfg]
  have hagg' : (identify_query_intent now q).aggregation = some g := haa
  refine ⟨g, hagg', hfg, hg5, ?_, ?_, ?_⟩
  · exact noY_not_orderby _ (noY_sql_of_agg now q g hagg' hg5)
  · intro hgood
    have hsel1 : isSubList g.data
        (selectClauseOf (some g)
          ((identify_query_intent now q).tables.headD "SIGNALITEM")).data = true := by
      rcases hgood with hgc | hp | hp
      · subst hgc
        have hc : selectClauseOf (some "COUNT")
            ((identify_query_intent now q).tables.headD "SIGNALITEM")
              = "SELECT COUNT(*)" := rfl
        rw [hc]
        decide
      · rw [hp]
        simp only [List.mem_cons, List.not_mem_nil, or_false] at hg5
        rcases hg5 with h | h | h | h | h <;> subst h <;> decide
      · rw [hp]
        simp only [List.mem_cons, List.not_mem_nil, or_false] at hg5
        rcases hg5 with h | h | h | h | h <;> subst h <;> decide
    simp only [subB]
    rw [build_sql_query_clauses, hagg']
    simp only [String.data_append]
    exact isSubList_extend _ _ _ (isSubList_extend _ _ _
      (isSubList_extend _ _ _ (isSubList_extend _ _ _ hsel1)))
  · rintro ⟨hgc, hp1, hp2⟩
    have hselc : selectClauseOf (some g)
        ((identify_query_intent now q).tables.headD "SIGNALITEM")
          = "SELECT COUNT(*)" := by
      simp only [selectClauseOf]
      rw [if_neg hgc, if_neg hp1, if_neg hp2]
    rw [build_sql_query_clauses, hagg', hselc]
    simp only [String.data_append, List.append_assoc]
    exact isPrefixB_self_append _ _

/-- Witness for the amended C4 theorem: `"how many signals are there"`
has the aggregation keyword `how many`, no SELECT verb, and yields
`SELECT COUNT(*) FROM SIGNALITEM LIMIT 100`. -/
theorem identify_agg_select_noorder_witness :
    (anySubB aggKeywords (stripS (lowerStr "how many signals are there")) = true
      ∧ anySubB selectVerbs (stripS (lowerStr "how many signals are there")) = false)
    ∧ (∃ g, (identify_query_intent ⟨0, 1⟩ "how many signals are there").aggregation = some g
      ∧ firstAggGroup (stripS (lowerStr "how many signals are there")) = some g
      ∧ g ∈ ["COUNT", "AVG", "MAX", "MIN", "SUM"]
      ∧ isSubList "ORDER BY".data
          (build_sql_query (identify_query_intent ⟨0, 1⟩ "how many signals are there")).1.data
            = false
      ∧ ((g = "COUNT"
            ∨ (identify_query_intent ⟨0, 1⟩
                "how many signals are there").tables.headD "SIGNALITEM" = "SIGNALVALUE"
            ∨ (identify_query_intent ⟨0, 1⟩
                "how many signals are there").tables.headD "SIGNALITEM" = "REPDATA") →
          subB g (build_sql_query (identify_query_intent ⟨0, 1⟩
            "how many signals are there")).1 = true)
      ∧ ((g ≠ "COUNT"
            ∧ (identify_query_intent ⟨0, 1⟩
                "how many signals are there").tables.headD "SIGNALITEM" ≠ "SIGNALVALUE"
            ∧ (identify_query_intent ⟨0, 1⟩
                "how many signals are there").tables.headD "SIGNALITEM" ≠ "REPDATA") →
          isPrefixB "SELECT COUNT(*)".data
            (build_sql_query (identify_query_intent ⟨0, 1⟩
              "how many signals are there")).1.data = true)) :=
  ⟨⟨by decide, by decide⟩,
    identify_agg_select_noorder ⟨0, 1⟩ "how many signals are there" (by decide) (by decide)⟩
